import Mathlib

/-!
Verification development for the tailoring-shop management system.

We give a shallow embedding of the service layer (order status state machine,
inventory stock ledger, material allocation, order-number generation and the
payment webhook) and prove the specified properties about it.

Conventions of the embedding:
* Django model tables become lists of records inside an explicit database state.
* `Decimal` quantities become `Rat` (`ℚ`).
* A service wrapped in `transaction.atomic` is modelled as a function returning
  `Option PyError × State`: the returned state is the state at the moment the
  exception is raised (before the rollback); an `atomic` wrapper that restores
  the incoming state on error recovers commit-or-rollback semantics.
* Raised Python exceptions become `PyError` values carrying the exception class
  name and the message.
-/

namespace Tailoring

/-- A raised Python exception: class name plus message. -/
structure PyError where
  className : String
  message : String
deriving DecidableEq, Repr

/-- `orders.models.OrderStatus` (immutable reference row). -/
structure OrderStatus where
  status_name : String
  display_label : String
deriving DecidableEq, Repr

/-- A user together with the data the transition check reads:
`get_roles()` (list of active role names) and `is_superuser`. -/
structure UserAccount where
  id : Nat
  roles : List String
  is_superuser : Bool
deriving DecidableEq, Repr

/-- `orders.models.Order` (fields read by the services under study). -/
structure OrderRec where
  id : Nat
  order_number : String
  customer_user : Nat
  current_status : OrderStatus
deriving DecidableEq, Repr

/-- `orders.models.OrderStatusHistory` row. -/
structure HistoryRow where
  order_id : Nat
  from_status : OrderStatus
  to_status : OrderStatus
  changed_by : Nat
  change_reason : Option String
deriving DecidableEq, Repr

/-- `audit.models.ActivityLog` row (fields written by `AuditService.log_activity`). -/
structure AuditEntry where
  entity_type : String
  entity_id : Nat
  action_type : String
  performed_by : Nat
  description : String
deriving DecidableEq, Repr

/-- `notifications.models.Notification` row (fields relevant here). -/
structure NotificationRow where
  type_name : String
  recipient : Nat
  channel : String
  status : String
  order_id : Option Nat
deriving DecidableEq, Repr

/-- `payments.models.Payment` row (fields used by the delivery gate). -/
structure PaymentRow where
  invoice_id : Nat
  status : String
deriving DecidableEq, Repr

/-- `billing.models.Invoice` row (link used by the delivery gate). -/
structure InvoiceRow where
  id : Nat
  bill_id : Nat
deriving DecidableEq, Repr

/-- `billing.models.Bill` row (link used by the delivery gate). -/
structure BillRow where
  id : Nat
  order_id : Nat
deriving DecidableEq, Repr

/-- Database state seen by `OrderService.transition_status`. -/
structure OrdersDB where
  orders : List OrderRec
  transitions : List (OrderStatus × OrderStatus)
  histories : List HistoryRow
  audits : List AuditEntry
  notification_types : List String
  notifications : List NotificationRow
  payments : List PaymentRow
  invoices : List InvoiceRow
  bills : List BillRow
deriving DecidableEq, Repr

/-- `Payment.objects.filter(invoice__bill__order=order, status='COMPLETED').exists()`:
join payment → invoice → bill → order. -/
def hasCompletedPayment (db : OrdersDB) (orderId : Nat) : Bool :=
  db.payments.any fun p =>
    p.status = "COMPLETED" &&
    db.invoices.any fun inv =>
      inv.id = p.invoice_id &&
      db.bills.any fun b => b.id = inv.bill_id && b.order_id = orderId

/-- The hard-coded tailor allow-list from `OrderService.transition_status`. -/
def tailor_allowed : List (String × String) :=
  [("fabric_allocated", "stitching"),
   ("stitching", "trial_scheduled"),
   ("stitching", "ready"),
   ("trial_scheduled", "ready"),
   ("alteration", "ready")]

/-- The `allowed` computation of the non-admin branch of
`OrderService.transition_status` (tailor, designer, delivery, staff checks,
in program order). -/
def allowedForRoles (user_roles : List String) (from_name to_name : String) : Bool :=
  let allowed := false
  let allowed :=
    if user_roles.contains "tailor" && tailor_allowed.contains (from_name, to_name) then
      true else allowed
  let allowed :=
    if user_roles.contains "designer" && (from_name = "booked" && to_name = "fabric_allocated") then
      true else allowed
  let allowed :=
    if user_roles.contains "delivery" && (from_name = "ready" && to_name = "delivered") then
      true else allowed
  let allowed := if user_roles.contains "staff" then true else allowed
  allowed

/-- One email notification dispatch, `NotificationService.send_notification`
with `channels=['email']`: get-or-create the notification type, then
`_send_email_notification` creates one `Notification` row whose final status is
`SENT` when `EmailService.send_email` returned `True` and `FAILED` otherwise.
`emailOk` is the boolean outcome of `EmailService.send_email` (which catches
all delivery exceptions internally and only returns a boolean). -/
def send_notification (emailOk : Bool) (db : OrdersDB) (recipient : Nat)
    (type_name : String) (order_id : Option Nat) : OrdersDB :=
  let db :=
    if db.notification_types.contains type_name then db
    else { db with notification_types := db.notification_types ++ [type_name] }
  { db with
    notifications := db.notifications ++
      [⟨type_name, recipient, "email", if emailOk then "SENT" else "FAILED", order_id⟩] }

/-- `NotificationService.notify_order_status_change`: sends `order_ready` when
the new status is `ready`, else `order_status_update`, to the customer user. -/
def notify_order_status_change (emailOk : Bool) (db : OrdersDB) (order : OrderRec)
    (new_status : OrderStatus) : OrdersDB :=
  if new_status.status_name = "ready" then
    send_notification emailOk db order.customer_user "order_ready" (some order.id)
  else
    send_notification emailOk db order.customer_user "order_status_update" (some order.id)

/-- `OrderStatusTransition.objects.filter(from_status=old, to_status=new).exists()`. -/
def validTransitionExists (db : OrdersDB) (old_status new_status : OrderStatus) : Bool :=
  db.transitions.any fun e => e.1 = old_status && e.2 = new_status

/-- The condition under which the role gate of `transition_status` raises:
`'admin' not in user_roles and not changed_by.is_superuser` and the computed
`allowed` flag is false. -/
def roleGateBlocks (changed_by : UserAccount) (from_name to_name : String) : Bool :=
  !(changed_by.roles.contains "admin") && !changed_by.is_superuser &&
    !(allowedForRoles changed_by.roles from_name to_name)

/-- Body of `OrderService.transition_status`, statement by statement.
Returns the raised exception (if any) together with the database state at that
moment; all validation happens before any mutation, exactly as in the source. -/
def transition_status_body (emailOk : Bool) (db : OrdersDB) (order : OrderRec)
    (new_status : OrderStatus) (changed_by : UserAccount) (reason : Option String) :
    Option PyError × OrdersDB :=
  let old_status := order.current_status
  let valid := validTransitionExists db old_status new_status
  if !valid then
    (some ⟨"InvalidTransitionError",
      "Cannot transition from \x22" ++ old_status.display_label ++
        "\x22 to \x22" ++ new_status.display_label ++ "\x22"⟩, db)
  else
    let from_name := old_status.status_name
    let to_name := new_status.status_name
    if roleGateBlocks changed_by from_name to_name then
      (some ⟨"InvalidTransitionError",
        "Your role does not allow changing status from \x22" ++ old_status.display_label ++
          "\x22 to \x22" ++ new_status.display_label ++ "\x22"⟩, db)
    else if to_name = "delivered" && !(hasCompletedPayment db order.id) then
      (some ⟨"InvalidTransitionError",
        "Cannot mark as delivered: Order has no completed payment. Customer must pay before delivery."⟩,
       db)
    else
      let db := { db with
        orders := db.orders.map fun (o : OrderRec) =>
          if o.id = order.id then { o with current_status := new_status } else o }
      let db := { db with
        histories := db.histories ++
          [(⟨order.id, old_status, new_status, changed_by.id, reason⟩ : HistoryRow)] }
      let db := { db with
        audits := db.audits ++
          [(⟨"order", order.id, "STATUS_CHANGE", changed_by.id,
            reason.getD ("Status changed from " ++ old_status.display_label ++
              " to " ++ new_status.display_label)⟩ : AuditEntry)] }
      let db := notify_order_status_change emailOk db { order with current_status := new_status }
        new_status
      (none, db)

/-- `OrderService.transition_status` with the `transaction.atomic` wrapper:
on an exception the incoming state is restored (rollback). -/
def transition_status (emailOk : Bool) (db : OrdersDB) (order : OrderRec)
    (new_status : OrderStatus) (changed_by : UserAccount) (reason : Option String) :
    Except PyError OrdersDB :=
  match transition_status_body emailOk db order new_status changed_by reason with
  | (some e, _) => .error e
  | (none, db') => .ok db'

/-- Whether an `Except` result is a success. -/
def exceptOk {ε α : Type} : Except ε α → Bool
  | .ok _ => true
  | .error _ => false

/-- Spec-side predicate: the acting user's role is explicitly allow-listed for
the edge (the tailor / designer / delivery allow-lists of the source). -/
def roleAllowListed (roles : List String) (from_name to_name : String) : Prop :=
  ("tailor" ∈ roles ∧ (from_name, to_name) ∈ tailor_allowed) ∨
  ("designer" ∈ roles ∧ from_name = "booked" ∧ to_name = "fabric_allocated") ∨
  ("delivery" ∈ roles ∧ from_name = "ready" ∧ to_name = "delivered")

/-- Spec-side classification of which of the three rejection checks of
`transition_status` fires first: `0` = invalid edge, `1` = unauthorized role,
`2` = failed payment precondition, `none` = no rejection. -/
def rejectionKind (db : OrdersDB) (order : OrderRec) (new_status : OrderStatus)
    (changed_by : UserAccount) : Option Nat :=
  if !(validTransitionExists db order.current_status new_status) then some 0
  else if roleGateBlocks changed_by order.current_status.status_name
      new_status.status_name then some 1
  else if new_status.status_name = "delivered" && !(hasCompletedPayment db order.id) then
    some 2
  else none

/-! Concrete fixtures used for counterexamples and witnesses. -/

/-- Fixture: the `booked` status row. -/
def stBooked : OrderStatus := ⟨"booked", "Booked"⟩

/-- Fixture: the `ready` status row. -/
def stReady : OrderStatus := ⟨"ready", "Ready"⟩

/-- Fixture: the `delivered` status row. -/
def stDelivered : OrderStatus := ⟨"delivered", "Delivered"⟩

/-- Fixture: an administrator account. -/
def adminUser : UserAccount := ⟨1, ["admin"], false⟩

/-- Fixture: an order sitting in `booked`. -/
def orderBooked : OrderRec := ⟨10, "ORD-2026-0001", 5, stBooked⟩

/-- Fixture: an order sitting in `ready`. -/
def orderReady : OrderRec := ⟨11, "ORD-2026-0002", 5, stReady⟩

/-- Fixture: a database with only the edge `ready → delivered` and no payments. -/
def dbFix : OrdersDB :=
  { orders := [orderBooked, orderReady],
    transitions := [(stReady, stDelivered)],
    histories := [], audits := [], notification_types := [], notifications := [],
    payments := [], invoices := [], bills := [] }

/-- Fixture: a database that also has the edge `booked → ready` (an edge the
real seed data does not have, but any edge works for exercising success). -/
def dbFix2 : OrdersDB :=
  { dbFix with transitions := [(stReady, stDelivered), (stBooked, stReady)] }

/-- Fixture: the database state after the successful `booked → ready`
transition on `dbFix2` (extracted from the run itself). -/
def dbFixAfter : OrdersDB :=
  match transition_status true dbFix2 orderBooked stReady adminUser none with
  | .ok d => d
  | .error _ => dbFix2


/-! ## Inventory embedding -/

/-- `inventory.models.Fabric` (fields used by the services). -/
structure FabricRec where
  id : Nat
  quantity_in_stock : ℚ
  cost_per_meter : ℚ
  reorder_threshold : ℚ
deriving DecidableEq, Repr

/-- `inventory.models.StockTransaction` row. -/
structure StockTx where
  fabric_id : Nat
  transaction_type : String
  quantity_meters : ℚ
  previous_quantity : ℚ
  new_quantity : ℚ
  order_id : Option Nat
  notes : String
deriving DecidableEq, Repr

/-- `inventory.models.LowStockAlert` row (one-to-one with `Fabric`). -/
structure AlertRec where
  id : Nat
  fabric_id : Nat
  is_resolved : Bool
deriving DecidableEq, Repr

/-- `orders.models.OrderMaterialAllocation` row (fields used here). -/
structure AllocationRec where
  order_id : Nat
  fabric_id : Nat
  quantity_meters : ℚ
  unit_cost : ℚ
deriving DecidableEq, Repr

/-- Database state seen by the inventory services and `allocate_material`. -/
structure InvDB where
  fabrics : List FabricRec
  transactions : List StockTx
  alerts : List AlertRec
  allocations : List AllocationRec
  next_fabric_id : Nat
  next_alert_id : Nat
deriving DecidableEq, Repr

/-- The empty inventory database. -/
def emptyInvDB : InvDB := ⟨[], [], [], [], 0, 0⟩

/-- `fabric.save(update_fields=['quantity_in_stock', 'updated_at'])`: store the
new quantity on the fabric row with the given id. -/
def updateFabricQty (db : InvDB) (fabric_id : Nat) (q : ℚ) : InvDB :=
  { db with fabrics := db.fabrics.map fun (f : FabricRec) =>
      if f.id = fabric_id then { f with quantity_in_stock := q } else f }

/-- `InventoryService._check_low_stock_alert`: when the quantity is at or below
the reorder threshold, `get_or_create` an alert for the fabric (one-to-one),
and reactivate it in place when it exists but was resolved. -/
def check_low_stock_alert (db : InvDB) (fabric : FabricRec) : InvDB :=
  if fabric.quantity_in_stock ≤ fabric.reorder_threshold then
    match db.alerts.find? (fun a => a.fabric_id = fabric.id) with
    | none =>
        { db with
          alerts := db.alerts ++ [⟨db.next_alert_id, fabric.id, false⟩],
          next_alert_id := db.next_alert_id + 1 }
    | some alert =>
        if alert.is_resolved then
          { db with alerts := db.alerts.map fun (a : AlertRec) =>
              if a.id = alert.id then { a with is_resolved := false } else a }
        else db
  else db

/-- `InventoryService.create_fabric`. `has_created_by` mirrors the
`if created_by:` guard around logging the initial IN ledger row. -/
def create_fabric (db : InvDB) (quantity_in_stock cost_per_meter reorder_threshold : ℚ)
    (has_created_by : Bool) : InvDB × FabricRec :=
  let previous_qty : ℚ := 0
  let new_qty := quantity_in_stock
  let fabric : FabricRec := ⟨db.next_fabric_id, new_qty, cost_per_meter, reorder_threshold⟩
  let db := { db with
    fabrics := db.fabrics ++ [fabric],
    next_fabric_id := db.next_fabric_id + 1 }
  let db :=
    if has_created_by then
      { db with transactions := db.transactions ++
        [(⟨fabric.id, "IN", new_qty, previous_qty, new_qty, none,
          "Initial stock entry"⟩ : StockTx)] }
    else db
  (check_low_stock_alert db fabric, fabric)

/-- `InventoryService.record_stock_in`. -/
def record_stock_in (db : InvDB) (fabric_id : Nat) (quantity : ℚ) (notes : String) :
    Option PyError × InvDB :=
  match db.fabrics.find? (fun f => f.id = fabric_id) with
  | none => (some ⟨"Fabric.DoesNotExist", "Fabric matching query does not exist."⟩, db)
  | some fabric =>
    let previous_qty := fabric.quantity_in_stock
    let new_qty := previous_qty + quantity
    let db := updateFabricQty db fabric_id new_qty
    (none, { db with transactions := db.transactions ++
      [(⟨fabric_id, "IN", quantity, previous_qty, new_qty, none, notes⟩ : StockTx)] })

/-- `InventoryService.record_stock_out`. -/
def record_stock_out (db : InvDB) (fabric_id : Nat) (quantity : ℚ)
    (order_id : Option Nat) (notes : String) : Option PyError × InvDB :=
  match db.fabrics.find? (fun f => f.id = fabric_id) with
  | none => (some ⟨"Fabric.DoesNotExist", "Fabric matching query does not exist."⟩, db)
  | some fabric =>
    let previous_qty := fabric.quantity_in_stock
    if previous_qty < quantity then
      (some ⟨"ValidationError",
        "Insufficient stock. Available: " ++ toString previous_qty ++
          "m, Required: " ++ toString quantity ++ "m"⟩, db)
    else
      let new_qty := previous_qty - quantity
      let db := updateFabricQty db fabric_id new_qty
      let db := { db with transactions := db.transactions ++
        [(⟨fabric_id, "OUT", quantity, previous_qty, new_qty, order_id, notes⟩ : StockTx)] }
      (none, check_low_stock_alert db { fabric with quantity_in_stock := new_qty })

/-- `InventoryService.record_damage`. -/
def record_damage (db : InvDB) (fabric_id : Nat) (quantity : ℚ) (notes : String) :
    Option PyError × InvDB :=
  match db.fabrics.find? (fun f => f.id = fabric_id) with
  | none => (some ⟨"Fabric.DoesNotExist", "Fabric matching query does not exist."⟩, db)
  | some fabric =>
    let previous_qty := fabric.quantity_in_stock
    if previous_qty < quantity then
      (some ⟨"ValidationError", "Cannot record damage greater than available stock."⟩, db)
    else
      let new_qty := previous_qty - quantity
      let db := updateFabricQty db fabric_id new_qty
      let db := { db with transactions := db.transactions ++
        [(⟨fabric_id, "DAMAGE", quantity, previous_qty, new_qty, none, notes⟩ : StockTx)] }
      (none, check_low_stock_alert db { fabric with quantity_in_stock := new_qty })

/-- `InventoryService.resolve_alert`: mark the given alert resolved. -/
def resolve_alert (db : InvDB) (alert_id : Nat) : InvDB :=
  { db with alerts := db.alerts.map fun (a : AlertRec) =>
      if a.id = alert_id then { a with is_resolved := true } else a }

/-- `OrderService.allocate_material`: check availability, create one allocation
with a cost snapshot, then deduct through `record_stock_out` tagged with the
order. -/
def allocate_material (db : InvDB) (order_id : Nat) (order_number : String)
    (fabric_id : Nat) (quantity_meters : ℚ) : Option PyError × InvDB :=
  match db.fabrics.find? (fun f => f.id = fabric_id) with
  | none => (some ⟨"Fabric.DoesNotExist", "Fabric matching query does not exist."⟩, db)
  | some fabric =>
    if fabric.quantity_in_stock < quantity_meters then
      (some ⟨"ValidationError",
        "Insufficient stock. Available: " ++ toString fabric.quantity_in_stock ++
          "m, Required: " ++ toString quantity_meters ++ "m"⟩, db)
    else
      let db := { db with allocations := db.allocations ++
        [(⟨order_id, fabric_id, quantity_meters, fabric.cost_per_meter⟩ : AllocationRec)] }
      record_stock_out db fabric_id quantity_meters (some order_id)
        ("Allocated for order " ++ order_number)

/-- One inventory-facing service invocation with the parameters a caller
controls. -/
inductive InvOp where
  | createFabric (quantity cost threshold : ℚ) (has_created_by : Bool)
  | stockIn (fabric_id : Nat) (quantity : ℚ) (notes : String)
  | stockOut (fabric_id : Nat) (quantity : ℚ) (order_id : Option Nat) (notes : String)
  | damage (fabric_id : Nat) (quantity : ℚ) (notes : String)
  | allocate (order_id : Nat) (order_number : String) (fabric_id : Nat) (quantity : ℚ)
  | resolveAlert (alert_id : Nat)
deriving DecidableEq, Repr

/-- Run one operation with commit-or-rollback semantics: a raised error leaves
the state unchanged. -/
def applyInvOp (db : InvDB) (op : InvOp) : InvDB :=
  match op with
  | .createFabric q c t hc => (create_fabric db q c t hc).1
  | .stockIn fid q n =>
      match record_stock_in db fid q n with
      | (some _, _) => db
      | (none, db') => db'
  | .stockOut fid q oid n =>
      match record_stock_out db fid q oid n with
      | (some _, _) => db
      | (none, db') => db'
  | .damage fid q n =>
      match record_damage db fid q n with
      | (some _, _) => db
      | (none, db') => db'
  | .allocate oid onum fid q =>
      match allocate_material db oid onum fid q with
      | (some _, _) => db
      | (none, db') => db'
  | .resolveAlert aid => resolve_alert db aid

/-- Run a sequence of inventory operations from a given state. -/
def runInvOps (db : InvDB) (ops : List InvOp) : InvDB :=
  ops.foldl applyInvOp db

/-- Signed delta of one ledger row: IN adds, OUT and DAMAGE subtract. -/
def txDelta (t : StockTx) : ℚ :=
  if t.transaction_type = "IN" then t.quantity_meters
  else if t.transaction_type = "OUT" then -t.quantity_meters
  else if t.transaction_type = "DAMAGE" then -t.quantity_meters
  else 0

/-- Running sum of signed ledger deltas for one fabric. -/
def ledgerSum (fabric_id : Nat) (txs : List StockTx) : ℚ :=
  ((txs.filter (fun t => t.fabric_id = fabric_id)).map txDelta).sum

/-- Spec-side invariant: every fabric quantity equals its signed ledger sum. -/
def LedgerInv (db : InvDB) : Prop :=
  ∀ f ∈ db.fabrics, f.quantity_in_stock = ledgerSum f.id db.transactions

/-- Structural well-formedness maintained by the inventory services: fabric ids
are pairwise distinct and below the id counter, and ledger rows only refer to
already-allocated fabric ids. -/
def InvGood (db : InvDB) : Prop :=
  (db.fabrics.map (fun f => f.id)).Nodup ∧
  (∀ f ∈ db.fabrics, f.id < db.next_fabric_id) ∧
  (∀ t ∈ db.transactions, t.fabric_id < db.next_fabric_id)

/-- Spec-side: an operation whose `create_fabric` call passes a recording user
(the `created_by` argument), so the initial IN row is logged. -/
def createLogged : InvOp → Prop
  | .createFabric _ _ _ hc => hc = true
  | _ => True

/-- Spec-side: the nonnegativity the inventory forms validate at every call
site (`min_value=0.01`) for the operations that can add stock. -/
def nonnegOp : InvOp → Prop
  | .createFabric q _ _ _ => 0 ≤ q
  | .stockIn _ q _ => 0 ≤ q
  | _ => True

/-- Number of alert records for one fabric. -/
def alertCount (db : InvDB) (fid : Nat) : Nat :=
  (db.alerts.filter (fun a => a.fabric_id = fid)).length

/-- Number of unresolved alert records for one fabric. -/
def unresolvedAlertCount (db : InvDB) (fid : Nat) : Nat :=
  (db.alerts.filter (fun a => a.fabric_id = fid && !a.is_resolved)).length

/-- Spec-side invariant: at most one alert record per fabric (the one-to-one
relation of `LowStockAlert.fabric`). -/
def AlertOk (db : InvDB) : Prop :=
  ∀ fid, alertCount db fid ≤ 1


/-! ## Payment webhook embedding -/

/-- The fields of the webhook payload read by `process_webhook`
(`event_data.get('event_id')`, `event_data.get('id')`, `event_data.get('event')`). -/
structure EventData where
  event_id : Option String
  id : Option String
  event : Option String
deriving DecidableEq, Repr

/-- `payments.models.WebhookEvent` row (fields used for idempotency). -/
structure WebhookRec where
  event_id : Option String
  event_type : Option String
  status : String
deriving DecidableEq, Repr

/-- State seen by `process_webhook`: the webhook-event ledger plus the record
of payment/refund side effects actually committed. Each execution of
`_handle_payment_captured` / `_handle_refund_processed` is abstracted as
appending one effect entry tagged with the event id. -/
structure WebhookDB where
  webhook_events : List WebhookRec
  effects : List (String × Option String)
deriving DecidableEq, Repr

/-- The empty webhook state. -/
def emptyWebhookDB : WebhookDB := ⟨[], []⟩

/-- `event_data.get('event_id', event_data.get('id'))`. -/
def effectiveEventId (ev : EventData) : Option String := ev.event_id <|> ev.id

/-- `WebhookEvent.objects.filter(event_id=event_id).first()` as an existence
check. -/
def eventRecorded (db : WebhookDB) (eid : Option String) : Bool :=
  db.webhook_events.any fun w => w.event_id = eid

/-- `PaymentService.process_webhook`: deduplicate on the event id, record the
event (status `processing`), dispatch to the matching handler, then mark the
event `success`. `handlerOk` abstracts whether the handler body raises; a
raise inside the atomic block rolls everything back and re-raises. Returns
the `bool` the service returns (`False` for ignored duplicates). -/
def process_webhook (handlerOk : Bool) (db : WebhookDB) (ev : EventData) :
    Except PyError (Bool × WebhookDB) :=
  let event_id := effectiveEventId ev
  if eventRecorded db event_id then
    .ok (false, db)
  else
    let db1 := { db with webhook_events := db.webhook_events ++
      [(⟨event_id, ev.event, "processing"⟩ : WebhookRec)] }
    if (ev.event = some "payment.captured" || ev.event = some "refund.processed") &&
        !handlerOk then
      .error ⟨"Exception", "webhook processing failed"⟩
    else
      let db2 :=
        if ev.event = some "payment.captured" then
          { db1 with effects := db1.effects ++ [("payment.captured", event_id)] }
        else if ev.event = some "refund.processed" then
          { db1 with effects := db1.effects ++ [("refund.processed", event_id)] }
        else db1
      .ok (true, { db2 with webhook_events := db2.webhook_events.map fun (w : WebhookRec) =>
          if w.event_id = event_id then { w with status := "success" } else w })

/-- Run a sequence of deliveries (handler outcome × payload); an exception
rolls the delivery back. -/
def runWebhooks (db : WebhookDB) (deliveries : List (Bool × EventData)) : WebhookDB :=
  deliveries.foldl (fun db d =>
    match process_webhook d.1 db d.2 with
    | .ok (_, db') => db'
    | .error _ => db) db

/-- How many committed side-effect executions carry the given event id. -/
def effectCount (db : WebhookDB) (eid : Option String) : Nat :=
  (db.effects.filter (fun e => e.2 = eid)).length


/-! ## Order number generation embedding -/

/-- Lexicographic byte-order comparison of char lists: the collation under
which `order_by('-order_number').first()` picks its maximum. -/
def lexLt : List Char → List Char → Bool
  | [], [] => false
  | [], _ :: _ => true
  | _ :: _, [] => false
  | a :: as, b :: bs => if a < b then true else if b < a then false else lexLt as bs

/-- Python `s.split('-')` on a char list. -/
def splitDash : List Char → List (List Char)
  | [] => [[]]
  | c :: cs =>
    if c = '-' then [] :: splitDash cs
    else
      match splitDash cs with
      | h :: t => (c :: h) :: t
      | [] => [[c]]

/-- Python `int(s)` on the suffix strings arising here: succeeds on a nonempty
all-digit string with its decimal value, otherwise raises `ValueError`
(modelled as `none`). -/
def toNatDigits? (cs : List Char) : Option Nat :=
  if cs ≠ [] ∧ cs.all (fun c => c.isDigit) then
    some (cs.foldl (fun n c => n * 10 + (c.toNat - ('0').toNat)) 0)
  else none

/-- The f-string padding `f"{n:04d}"` for a natural number. -/
def pad4 (n : Nat) : String :=
  let s := toString n
  if s.length < 4 then String.mk (List.replicate (4 - s.length) '0' ++ s.data) else s

/-- `Order.generate_order_number`: filter existing numbers by this year's
prefix, take the lexicographically highest, parse the part after the last
dash as an integer (`ValueError` restarts at 1) and increment, then format
zero-padded to four digits. -/
def generate_order_number (year : Nat) (existing : List String) : String :=
  let pfx := "ORD-" ++ toString year ++ "-"
  let latest := (existing.filter (fun s => pfx.data.isPrefixOf s.data)).foldl
    (fun acc s =>
      match acc with
      | none => some s
      | some m => if lexLt m.data s.data then some s else some m) none
  match latest with
  | none => pfx ++ pad4 1
  | some l =>
    match toNatDigits? ((splitDash l.data).getLastD []) with
    | some last_num => pfx ++ pad4 (last_num + 1)
    | none => pfx ++ pad4 1

/-- Spec-side: the numeric suffix the generator parses from an order number. -/
def numericSuffix (s : String) : Nat :=
  (toNatDigits? ((splitDash s.data).getLastD [])).getD 0

/-- Spec-side: a well-formed order number of the given year whose zero-padded
numeric suffix is `k`. -/
def wellFormedNumber (year : Nat) (k : Nat) (s : String) : Prop :=
  1 ≤ k ∧ k ≤ 9998 ∧ s = "ORD-" ++ toString year ++ "-" ++ pad4 k

/-! ## Theorems: order status state machine -/

theorem allowedForRoles_eq_true_iff (roles : List String) (f t : String) :
    allowedForRoles roles f t = true ↔ ("staff" ∈ roles ∨ roleAllowListed roles f t) := by
  simp only [allowedForRoles, roleAllowListed]
  by_cases h1 : "tailor" ∈ roles <;> by_cases h2 : "designer" ∈ roles <;>
    by_cases h3 : "delivery" ∈ roles <;> by_cases h4 : "staff" ∈ roles <;>
    by_cases h5 : (f, t) ∈ tailor_allowed <;>
    simp_all <;> tauto

theorem any_pair_eq_iff {α β : Type} [DecidableEq α] [DecidableEq β]
    (l : List (α × β)) (a : α) (b : β) :
    (l.any fun e => e.1 = a && e.2 = b) = true ↔ (a, b) ∈ l := by
  simp only [List.any_eq_true, Bool.and_eq_true, decide_eq_true_eq]
  constructor
  · rintro ⟨⟨x, y⟩, hm, rfl, rfl⟩; exact hm
  · intro hm; exact ⟨(a, b), hm, rfl, rfl⟩

theorem validTransitionExists_iff (db : OrdersDB) (a b : OrderStatus) :
    validTransitionExists db a b = true ↔ (a, b) ∈ db.transitions :=
  any_pair_eq_iff db.transitions a b

theorem roleGateBlocks_eq_false_iff (u : UserAccount) (f t : String) :
    roleGateBlocks u f t = false ↔
      (u.is_superuser = true ∨ "admin" ∈ u.roles ∨ "staff" ∈ u.roles ∨
        roleAllowListed u.roles f t) := by
  have h := allowedForRoles_eq_true_iff u.roles f t
  simp only [roleGateBlocks, Bool.and_eq_false_iff, Bool.not_eq_false', Bool.not_eq_false]
  by_cases h1 : "admin" ∈ u.roles <;> by_cases h2 : u.is_superuser = true <;>
    by_cases h3 : allowedForRoles u.roles f t = true <;> simp_all

theorem transition_status_body_fst_eq_none_iff (emailOk : Bool) (db : OrdersDB)
    (order : OrderRec) (new_status : OrderStatus) (changed_by : UserAccount)
    (reason : Option String) :
    (transition_status_body emailOk db order new_status changed_by reason).1 = none ↔
      (validTransitionExists db order.current_status new_status = true ∧
       roleGateBlocks changed_by order.current_status.status_name
         new_status.status_name = false ∧
       (new_status.status_name = "delivered" → hasCompletedPayment db order.id = true)) := by
  simp only [transition_status_body]
  split_ifs with h1 h2 h3 <;>
    simp_all [Bool.not_eq_true', Bool.and_eq_true, Bool.not_eq_true]

theorem transition_status_ok_iff_body (emailOk : Bool) (db : OrdersDB)
    (order : OrderRec) (new_status : OrderStatus) (changed_by : UserAccount)
    (reason : Option String) :
    exceptOk (transition_status emailOk db order new_status changed_by reason) = true ↔
      (transition_status_body emailOk db order new_status changed_by reason).1 = none := by
  unfold transition_status
  rcases h : transition_status_body emailOk db order new_status changed_by reason with ⟨e?, db'⟩
  cases e? <;> simp [exceptOk]

theorem transition_ok_iff (emailOk : Bool) (db : OrdersDB) (order : OrderRec)
    (new_status : OrderStatus) (changed_by : UserAccount) (reason : Option String) :
    exceptOk (transition_status emailOk db order new_status changed_by reason) = true ↔
      ((order.current_status, new_status) ∈ db.transitions ∧
       (changed_by.is_superuser = true ∨ "admin" ∈ changed_by.roles ∨
        "staff" ∈ changed_by.roles ∨
        roleAllowListed changed_by.roles order.current_status.status_name
          new_status.status_name) ∧
       (new_status.status_name ≠ "delivered" ∨ hasCompletedPayment db order.id = true)) := by
  rw [transition_status_ok_iff_body, transition_status_body_fst_eq_none_iff,
    validTransitionExists_iff, roleGateBlocks_eq_false_iff]
  constructor
  · rintro ⟨a, b, c⟩
    refine ⟨a, b, ?_⟩
    by_cases hd : new_status.status_name = "delivered"
    · exact Or.inr (c hd)
    · exact Or.inl hd
  · rintro ⟨a, b, c⟩
    refine ⟨a, b, fun hd => ?_⟩
    rcases c with c | c
    · exact absurd hd c
    · exact c

/-- C1: a status transition succeeds iff the edge exists in the transition
graph, the acting user is a superuser or holds the admin or staff role or is
explicitly allow-listed for the edge, and the target is not `delivered` or a
COMPLETED payment linked through invoice and bill to the order exists. -/
theorem transition_status_success_characterization (emailOk : Bool) (db : OrdersDB)
    (order : OrderRec) (new_status : OrderStatus) (changed_by : UserAccount)
    (reason : Option String) :
    exceptOk (transition_status emailOk db order new_status changed_by reason) = true ↔
      ((order.current_status, new_status) ∈ db.transitions ∧
       (changed_by.is_superuser = true ∨ "admin" ∈ changed_by.roles ∨
        "staff" ∈ changed_by.roles ∨
        roleAllowListed changed_by.roles order.current_status.status_name
          new_status.status_name) ∧
       (new_status.status_name ≠ "delivered" ∨ hasCompletedPayment db order.id = true)) :=
  transition_ok_iff emailOk db order new_status changed_by reason


/-- C2: a rejected transition mutates nothing: the database state at the moment
the exception is raised is the incoming state (statuses, history, audit log and
notifications all unchanged), and the atomic wrapper reports the error. -/
theorem transition_rejected_no_mutation (emailOk : Bool) (db : OrdersDB) (order : OrderRec)
    (new_status : OrderStatus) (changed_by : UserAccount) (reason : Option String)
    (e : PyError) (db' : OrdersDB)
    (h : transition_status_body emailOk db order new_status changed_by reason = (some e, db')) :
    db' = db ∧ db'.orders = db.orders ∧ db'.histories = db.histories ∧
      db'.audits = db.audits ∧ db'.notifications = db.notifications ∧
      transition_status emailOk db order new_status changed_by reason = .error e := by
  have hdb : db' = db := by
    simp only [transition_status_body] at h
    split_ifs at h <;> simp only [Prod.mk.injEq] at h
    · exact h.2.symm
    · exact h.2.symm
    · exact h.2.symm
    · exact absurd h.1 (by simp)
  subst hdb
  refine ⟨rfl, rfl, rfl, rfl, rfl, ?_⟩
  unfold transition_status
  rw [h]

/-- C2 witness: the rejected `booked → ready` attempt (no such edge) leaves the
fixture database untouched. -/
theorem transition_rejected_no_mutation_witness :
    dbFix = dbFix ∧ dbFix.orders = dbFix.orders ∧ dbFix.histories = dbFix.histories ∧
      dbFix.audits = dbFix.audits ∧ dbFix.notifications = dbFix.notifications ∧
      transition_status true dbFix orderBooked stReady adminUser none =
        .error ⟨"InvalidTransitionError",
          "Cannot transition from \x22Booked\x22 to \x22Ready\x22"⟩ :=
  transition_rejected_no_mutation true dbFix orderBooked stReady adminUser none _ _ (by rfl)


/-- C3 counterexample: an invalid-edge rejection (kind 0) and a failed
payment-precondition rejection (kind 2) are raised with the same exception
class `InvalidTransitionError`, so the error type alone cannot discriminate
the kind of failure. -/
theorem transition_rejections_same_class_counterexample :
    rejectionKind dbFix orderBooked stReady adminUser = some 0 ∧
    rejectionKind dbFix orderReady stDelivered adminUser = some 2 ∧
    transition_status true dbFix orderBooked stReady adminUser none =
      .error ⟨"InvalidTransitionError",
        "Cannot transition from \x22Booked\x22 to \x22Ready\x22"⟩ ∧
    transition_status true dbFix orderReady stDelivered adminUser none =
      .error ⟨"InvalidTransitionError",
        "Cannot mark as delivered: Order has no completed payment. Customer must pay before delivery."⟩ := by
  refine ⟨by decide, by decide, by rfl, by rfl⟩

/-- C3 amended: every rejection of `transition_status` is reported with the one
exception class `InvalidTransitionError`; the kinds differ only in message. -/
theorem transition_rejections_single_error_type (emailOk : Bool) (db : OrdersDB)
    (order : OrderRec) (new_status : OrderStatus) (changed_by : UserAccount)
    (reason : Option String) (e : PyError)
    (h : transition_status emailOk db order new_status changed_by reason = .error e) :
    e.className = "InvalidTransitionError" := by
  unfold transition_status at h
  rcases hb : transition_status_body emailOk db order new_status changed_by reason with ⟨e?, dbx⟩
  rw [hb] at h
  cases e? with
  | none => simp at h
  | some e' =>
    simp only [Except.error.injEq] at h
    subst h
    simp only [transition_status_body] at hb
    split_ifs at hb <;> simp only [Prod.mk.injEq] at hb
    · obtain ⟨h1, -⟩ := hb; injection h1 with h1; rw [← h1]
    · obtain ⟨h1, -⟩ := hb; injection h1 with h1; rw [← h1]
    · obtain ⟨h1, -⟩ := hb; injection h1 with h1; rw [← h1]
    · exact absurd hb.1 (by simp)

/-- C3 amended witness. -/
theorem transition_rejections_single_error_type_witness :
    (⟨"InvalidTransitionError",
      "Cannot transition from \x22Booked\x22 to \x22Ready\x22"⟩ : PyError).className =
      "InvalidTransitionError" :=
  transition_rejections_single_error_type true dbFix orderBooked stReady adminUser none _
    (by rfl)


theorem send_notification_core (emailOk : Bool) (db : OrdersDB) (r : Nat)
    (tn : String) (oid : Option Nat) :
    (send_notification emailOk db r tn oid).orders = db.orders ∧
    (send_notification emailOk db r tn oid).histories = db.histories ∧
    (send_notification emailOk db r tn oid).audits = db.audits ∧
    (send_notification emailOk db r tn oid).notifications.length =
      db.notifications.length + 1 := by
  unfold send_notification
  split_ifs <;> simp

theorem notify_order_status_change_core (emailOk : Bool) (db : OrdersDB)
    (o : OrderRec) (ns : OrderStatus) :
    (notify_order_status_change emailOk db o ns).orders = db.orders ∧
    (notify_order_status_change emailOk db o ns).histories = db.histories ∧
    (notify_order_status_change emailOk db o ns).audits = db.audits ∧
    (notify_order_status_change emailOk db o ns).notifications.length =
      db.notifications.length + 1 := by
  unfold notify_order_status_change
  split_ifs <;> exact send_notification_core ..

theorem transition_status_ok_effects (emailOk : Bool) (db : OrdersDB) (order : OrderRec)
    (new_status : OrderStatus) (changed_by : UserAccount) (reason : Option String)
    (db' : OrdersDB)
    (h : transition_status emailOk db order new_status changed_by reason = .ok db') :
    db'.orders = (db.orders.map fun (o : OrderRec) =>
        if o.id = order.id then { o with current_status := new_status } else o) ∧
    db'.histories = db.histories ++
      [(⟨order.id, order.current_status, new_status, changed_by.id, reason⟩ : HistoryRow)] ∧
    db'.audits = db.audits ++
      [(⟨"order", order.id, "STATUS_CHANGE", changed_by.id,
        reason.getD ("Status changed from " ++ order.current_status.display_label ++
          " to " ++ new_status.display_label)⟩ : AuditEntry)] ∧
    db'.notifications.length = db.notifications.length + 1 := by
  unfold transition_status at h
  rcases hb : transition_status_body emailOk db order new_status changed_by reason with ⟨e?, dbx⟩
  rw [hb] at h
  cases e? with
  | some e' => simp at h
  | none =>
    simp only [Except.ok.injEq] at h
    subst h
    simp only [transition_status_body] at hb
    split_ifs at hb <;> simp only [Prod.mk.injEq] at hb
    · exact absurd hb.1 (by simp)
    · exact absurd hb.1 (by simp)
    · exact absurd hb.1 (by simp)
    · obtain ⟨-, h2⟩ := hb
      rw [← h2]
      have hc := notify_order_status_change_core emailOk
        { db with
          orders := db.orders.map fun (o : OrderRec) =>
            if o.id = order.id then { o with current_status := new_status } else o,
          histories := db.histories ++
            [(⟨order.id, order.current_status, new_status, changed_by.id, reason⟩ : HistoryRow)],
          audits := db.audits ++
            [(⟨"order", order.id, "STATUS_CHANGE", changed_by.id,
              reason.getD ("Status changed from " ++ order.current_status.display_label ++
                " to " ++ new_status.display_label)⟩ : AuditEntry)] }
        { order with current_status := new_status } new_status
      exact ⟨hc.1, hc.2.1, hc.2.2.1, hc.2.2.2⟩


/-- C4: on a successful transition the status update, exactly one appended
history row and exactly one appended audit entry commit together, and the
outcome of the notification delivery (`emailOk`) never affects the committed
transition: with delivery failing, the transition still succeeds with the same
orders, history and audit state. -/
theorem transition_status_atomic_unit (emailOk : Bool) (db : OrdersDB) (order : OrderRec)
    (new_status : OrderStatus) (changed_by : UserAccount) (reason : Option String)
    (db' : OrdersDB)
    (h : transition_status emailOk db order new_status changed_by reason = .ok db') :
    db'.orders = (db.orders.map fun (o : OrderRec) =>
        if o.id = order.id then { o with current_status := new_status } else o) ∧
    db'.histories = db.histories ++
      [(⟨order.id, order.current_status, new_status, changed_by.id, reason⟩ : HistoryRow)] ∧
    db'.audits = db.audits ++
      [(⟨"order", order.id, "STATUS_CHANGE", changed_by.id,
        reason.getD ("Status changed from " ++ order.current_status.display_label ++
          " to " ++ new_status.display_label)⟩ : AuditEntry)] ∧
    db'.notifications.length = db.notifications.length + 1 ∧
    ∀ emailOk' : Bool, ∃ db'' : OrdersDB,
      transition_status emailOk' db order new_status changed_by reason = .ok db'' ∧
      db''.orders = db'.orders ∧ db''.histories = db'.histories ∧
      db''.audits = db'.audits := by
  have he := transition_status_ok_effects emailOk db order new_status changed_by reason db' h
  refine ⟨he.1, he.2.1, he.2.2.1, he.2.2.2, fun emailOk' => ?_⟩
  have hok : exceptOk (transition_status emailOk db order new_status changed_by reason) = true := by
    rw [h]; rfl
  rw [transition_ok_iff] at hok
  have hok' : exceptOk (transition_status emailOk' db order new_status changed_by reason) = true := by
    rw [transition_ok_iff]; exact hok
  cases hres : transition_status emailOk' db order new_status changed_by reason with
  | error e => rw [hres] at hok'; simp [exceptOk] at hok'
  | ok db'' =>
    have he' := transition_status_ok_effects emailOk' db order new_status changed_by reason db'' hres
    exact ⟨db'', rfl, by rw [he'.1, he.1], by rw [he'.2.1, he.2.1],
      by rw [he'.2.2.1, he.2.2.1]⟩

/-- C4 witness: the successful `booked → ready` transition on the fixture. -/
theorem transition_status_atomic_unit_witness :
    dbFixAfter.orders = (dbFix2.orders.map fun (o : OrderRec) =>
        if o.id = orderBooked.id then { o with current_status := stReady } else o) ∧
    dbFixAfter.histories = dbFix2.histories ++
      [(⟨orderBooked.id, orderBooked.current_status, stReady, adminUser.id, none⟩ : HistoryRow)] ∧
    dbFixAfter.audits = dbFix2.audits ++
      [(⟨"order", orderBooked.id, "STATUS_CHANGE", adminUser.id,
        (none : Option String).getD ("Status changed from " ++
          orderBooked.current_status.display_label ++ " to " ++
          stReady.display_label)⟩ : AuditEntry)] ∧
    dbFixAfter.notifications.length = dbFix2.notifications.length + 1 ∧
    ∀ emailOk' : Bool, ∃ db'' : OrdersDB,
      transition_status emailOk' dbFix2 orderBooked stReady adminUser none = .ok db'' ∧
      db''.orders = dbFixAfter.orders ∧ db''.histories = dbFixAfter.histories ∧
      db''.audits = dbFixAfter.audits :=
  transition_status_atomic_unit true dbFix2 orderBooked stReady adminUser none dbFixAfter
    (by rfl)


/-! Helper lemmas for the inventory invariants. -/

theorem check_low_stock_alert_core (db : InvDB) (f : FabricRec) :
    (check_low_stock_alert db f).fabrics = db.fabrics ∧
    (check_low_stock_alert db f).transactions = db.transactions ∧
    (check_low_stock_alert db f).allocations = db.allocations ∧
    (check_low_stock_alert db f).next_fabric_id = db.next_fabric_id := by
  unfold check_low_stock_alert
  split_ifs with h1
  · rcases hf : db.alerts.find? (fun a => a.fabric_id = f.id) with - | alert
    · simp only [hf]
      simp
    · simp only [hf]
      split_ifs <;> simp
  · simp

theorem resolve_alert_core (db : InvDB) (aid : Nat) :
    (resolve_alert db aid).fabrics = db.fabrics ∧
    (resolve_alert db aid).transactions = db.transactions ∧
    (resolve_alert db aid).allocations = db.allocations ∧
    (resolve_alert db aid).next_fabric_id = db.next_fabric_id := by
  unfold resolve_alert
  simp

theorem check_low_stock_alert_fabrics (db : InvDB) (f : FabricRec) :
    (check_low_stock_alert db f).fabrics = db.fabrics :=
  (check_low_stock_alert_core db f).1

theorem resolve_alert_fabrics (db : InvDB) (aid : Nat) :
    (resolve_alert db aid).fabrics = db.fabrics :=
  (resolve_alert_core db aid).1

theorem ledgerSum_append_single (fid : Nat) (txs : List StockTx) (t : StockTx) :
    ledgerSum fid (txs ++ [t]) =
      ledgerSum fid txs + (if t.fabric_id = fid then txDelta t else 0) := by
  unfold ledgerSum
  rw [List.filter_append]
  split_ifs with h <;> simp [List.filter_cons, h]

theorem ledgerSum_eq_zero_of_forall_ne (fid : Nat) (txs : List StockTx)
    (h : ∀ t ∈ txs, t.fabric_id ≠ fid) : ledgerSum fid txs = 0 := by
  unfold ledgerSum
  rw [List.filter_eq_nil_iff.mpr]
  · simp
  · intro t ht
    simp [h t ht]

theorem updateFabricQty_ids (db : InvDB) (fid : Nat) (q : ℚ) :
    (updateFabricQty db fid q).fabrics.map (fun f => f.id) =
      db.fabrics.map (fun f => f.id) := by
  unfold updateFabricQty
  simp only [List.map_map]
  apply List.map_congr_left
  intro f _
  by_cases h : f.id = fid <;> simp [h]


theorem invGood_transport (db db' : InvDB)
    (hf : db'.fabrics = db.fabrics) (ht : db'.transactions = db.transactions)
    (hn : db'.next_fabric_id = db.next_fabric_id) (h : InvGood db) : InvGood db' := by
  unfold InvGood at h ⊢
  rw [hf, ht, hn]
  exact h

theorem ledgerInv_transport (db db' : InvDB)
    (hf : db'.fabrics = db.fabrics) (ht : db'.transactions = db.transactions)
    (h : LedgerInv db) : LedgerInv db' := by
  unfold LedgerInv at h ⊢
  rw [hf, ht]
  exact h

theorem mutation_preserves (db : InvDB) (fid : Nat) (newq : ℚ) (tx : StockTx)
    (fabric : FabricRec)
    (hf : db.fabrics.find? (fun f => f.id = fid) = some fabric)
    (htx : tx.fabric_id = fid)
    (hq : newq = fabric.quantity_in_stock + txDelta tx)
    (hg : InvGood db) (hl : LedgerInv db) :
    InvGood { updateFabricQty db fid newq with
      transactions := db.transactions ++ [tx] } ∧
    LedgerInv { updateFabricQty db fid newq with
      transactions := db.transactions ++ [tx] } := by
  obtain ⟨hnd, hlt, htxlt⟩ := hg
  have hfmem : fabric ∈ db.fabrics := List.mem_of_find?_eq_some hf
  have hfid : fabric.id = fid := by
    have := List.find?_some hf
    simpa using this
  have hids := updateFabricQty_ids db fid newq
  constructor
  · refine ⟨?_, ?_, ?_⟩
    · simpa [hids] using hnd
    · intro f hfm
      simp only [updateFabricQty, List.mem_map] at hfm
      obtain ⟨g, hg1, rfl⟩ := hfm
      have hb := hlt g hg1
      by_cases h : g.id = fid <;> simp [updateFabricQty, h] <;> omega
    · intro t htm
      simp only [List.mem_append, List.mem_singleton] at htm
      rcases htm with htm | rfl
      · simpa [updateFabricQty] using htxlt t htm
      · have hb := hlt fabric hfmem
        simp only [updateFabricQty, htx, ← hfid]
        exact hb
  · intro f hfm
    simp only [updateFabricQty, List.mem_map] at hfm
    obtain ⟨g, hg1, rfl⟩ := hfm
    by_cases h : g.id = fid
    · rw [if_pos h]
      show newq = ledgerSum g.id (db.transactions ++ [tx])
      have hgf : g = fabric := List.inj_on_of_nodup_map hnd hg1 hfmem (by rw [h, hfid])
      rw [ledgerSum_append_single, if_pos (by rw [htx, ← h]), ← hl g hg1, hgf]
      exact hq
    · rw [if_neg h]
      show g.quantity_in_stock = ledgerSum g.id (db.transactions ++ [tx])
      rw [ledgerSum_append_single, if_neg (by rw [htx]; exact fun hh => h hh.symm),
        ← hl g hg1]
      simp


theorem record_stock_in_ok (db : InvDB) (fid : Nat) (q : ℚ) (n : String) (db' : InvDB)
    (h : record_stock_in db fid q n = (none, db'))
    (hg : InvGood db) (hl : LedgerInv db) : InvGood db' ∧ LedgerInv db' := by
  unfold record_stock_in at h
  rcases hf : db.fabrics.find? (fun f => f.id = fid) with - | fabric
  · rw [hf] at h
    simp at h
  · rw [hf] at h
    simp only [Prod.mk.injEq] at h
    obtain ⟨-, h2⟩ := h
    rw [← h2]
    exact mutation_preserves db fid (fabric.quantity_in_stock + q)
      ⟨fid, "IN", q, fabric.quantity_in_stock, fabric.quantity_in_stock + q, none, n⟩
      fabric hf rfl (by simp [txDelta]) hg hl

theorem record_stock_out_ok (db : InvDB) (fid : Nat) (q : ℚ) (oid : Option Nat)
    (n : String) (db' : InvDB)
    (h : record_stock_out db fid q oid n = (none, db'))
    (hg : InvGood db) (hl : LedgerInv db) : InvGood db' ∧ LedgerInv db' := by
  unfold record_stock_out at h
  rcases hf : db.fabrics.find? (fun f => f.id = fid) with - | fabric
  · rw [hf] at h
    simp at h
  · rw [hf] at h
    dsimp only at h
    split_ifs at h with hlt
    · simp at h
    · simp only [Prod.mk.injEq] at h
      obtain ⟨-, h2⟩ := h
      have hm := mutation_preserves db fid (fabric.quantity_in_stock - q)
        ⟨fid, "OUT", q, fabric.quantity_in_stock, fabric.quantity_in_stock - q, oid, n⟩
        fabric hf rfl (by simp [txDelta]; ring) hg hl
      have hc := check_low_stock_alert_core
        { updateFabricQty db fid (fabric.quantity_in_stock - q) with
          transactions := db.transactions ++
            [(⟨fid, "OUT", q, fabric.quantity_in_stock,
              fabric.quantity_in_stock - q, oid, n⟩ : StockTx)] }
        { fabric with quantity_in_stock := fabric.quantity_in_stock - q }
      rw [← h2]
      exact ⟨invGood_transport _ _ hc.1 hc.2.1 hc.2.2.2 hm.1,
        ledgerInv_transport _ _ hc.1 hc.2.1 hm.2⟩

theorem record_damage_ok (db : InvDB) (fid : Nat) (q : ℚ) (n : String) (db' : InvDB)
    (h : record_damage db fid q n = (none, db'))
    (hg : InvGood db) (hl : LedgerInv db) : InvGood db' ∧ LedgerInv db' := by
  unfold record_damage at h
  rcases hf : db.fabrics.find? (fun f => f.id = fid) with - | fabric
  · rw [hf] at h
    simp at h
  · rw [hf] at h
    dsimp only at h
    split_ifs at h with hlt
    · simp at h
    · simp only [Prod.mk.injEq] at h
      obtain ⟨-, h2⟩ := h
      have hm := mutation_preserves db fid (fabric.quantity_in_stock - q)
        ⟨fid, "DAMAGE", q, fabric.quantity_in_stock, fabric.quantity_in_stock - q, none, n⟩
        fabric hf rfl (by simp [txDelta]; ring) hg hl
      have hc := check_low_stock_alert_core
        { updateFabricQty db fid (fabric.quantity_in_stock - q) with
          transactions := db.transactions ++
            [(⟨fid, "DAMAGE", q, fabric.quantity_in_stock,
              fabric.quantity_in_stock - q, none, n⟩ : StockTx)] }
        { fabric with quantity_in_stock := fabric.quantity_in_stock - q }
      rw [← h2]
      exact ⟨invGood_transport _ _ hc.1 hc.2.1 hc.2.2.2 hm.1,
        ledgerInv_transport _ _ hc.1 hc.2.1 hm.2⟩

theorem allocate_material_ok (db : InvDB) (oid : Nat) (onum : String) (fid : Nat)
    (q : ℚ) (db' : InvDB)
    (h : allocate_material db oid onum fid q = (none, db'))
    (hg : InvGood db) (hl : LedgerInv db) : InvGood db' ∧ LedgerInv db' := by
  unfold allocate_material at h
  rcases hf : db.fabrics.find? (fun f => f.id = fid) with - | fabric
  · rw [hf] at h
    simp at h
  · rw [hf] at h
    dsimp only at h
    split_ifs at h with hlt
    · simp at h
    · have hg1 : InvGood { db with allocations := db.allocations ++
          [(⟨oid, fid, q, fabric.cost_per_meter⟩ : AllocationRec)] } :=
        invGood_transport _ _ rfl rfl rfl hg
      have hl1 : LedgerInv { db with allocations := db.allocations ++
          [(⟨oid, fid, q, fabric.cost_per_meter⟩ : AllocationRec)] } :=
        ledgerInv_transport _ _ rfl rfl hl
      exact record_stock_out_ok _ fid q (some oid) _ db' h hg1 hl1

theorem create_fabric_logged_ok (db : InvDB) (q c t : ℚ)
    (hg : InvGood db) (hl : LedgerInv db) :
    InvGood (create_fabric db q c t true).1 ∧ LedgerInv (create_fabric db q c t true).1 := by
  obtain ⟨hnd, hblt, htxlt⟩ := hg
  have hshape : (create_fabric db q c t true).1 =
      check_low_stock_alert { db with
        fabrics := db.fabrics ++ [⟨db.next_fabric_id, q, c, t⟩],
        transactions := db.transactions ++
          [⟨db.next_fabric_id, "IN", q, 0, q, none, "Initial stock entry"⟩],
        next_fabric_id := db.next_fabric_id + 1 } ⟨db.next_fabric_id, q, c, t⟩ := rfl
  rw [hshape]
  have hc := check_low_stock_alert_core { db with
    fabrics := db.fabrics ++ [⟨db.next_fabric_id, q, c, t⟩],
    transactions := db.transactions ++
      [⟨db.next_fabric_id, "IN", q, 0, q, none, "Initial stock entry"⟩],
    next_fabric_id := db.next_fabric_id + 1 } ⟨db.next_fabric_id, q, c, t⟩
  have hg2 : InvGood { db with
      fabrics := db.fabrics ++ [⟨db.next_fabric_id, q, c, t⟩],
      transactions := db.transactions ++
        [⟨db.next_fabric_id, "IN", q, 0, q, none, "Initial stock entry"⟩],
      next_fabric_id := db.next_fabric_id + 1 } := by
    refine ⟨?_, ?_, ?_⟩
    · simp only [List.map_append, List.map_cons, List.map_nil]
      rw [List.nodup_append]
      refine ⟨hnd, by simp, ?_⟩
      intro x hx hx2
      simp only [List.mem_singleton] at hx2
      simp only [List.mem_map] at hx
      obtain ⟨f, hf1, rfl⟩ := hx
      have := hblt f hf1
      omega
    · intro f hf
      simp only [List.mem_append, List.mem_singleton] at hf
      rcases hf with hf | rfl
      · have := hblt f hf
        dsimp only
        omega
      · show db.next_fabric_id < db.next_fabric_id + 1
        omega
    · intro tr htr
      simp only [List.mem_append, List.mem_singleton] at htr
      rcases htr with htr | rfl
      · have := htxlt tr htr
        dsimp only
        omega
      · show db.next_fabric_id < db.next_fabric_id + 1
        omega
  have hl2 : LedgerInv { db with
      fabrics := db.fabrics ++ [⟨db.next_fabric_id, q, c, t⟩],
      transactions := db.transactions ++
        [⟨db.next_fabric_id, "IN", q, 0, q, none, "Initial stock entry"⟩],
      next_fabric_id := db.next_fabric_id + 1 } := by
    intro f hf
    simp only [List.mem_append, List.mem_singleton] at hf
    rcases hf with hf | rfl
    · have hlt := hblt f hf
      show f.quantity_in_stock = ledgerSum f.id (db.transactions ++ _)
      rw [ledgerSum_append_single, if_neg (by show db.next_fabric_id ≠ f.id; omega),
        ← hl f hf]
      simp
    · show q = ledgerSum db.next_fabric_id (db.transactions ++ _)
      rw [ledgerSum_append_single, if_pos rfl,
        ledgerSum_eq_zero_of_forall_ne _ _ (by
          intro tr htr
          have := htxlt tr htr
          omega)]
      simp [txDelta]
  exact ⟨invGood_transport _ _ hc.1 hc.2.1 hc.2.2.2 hg2,
    ledgerInv_transport _ _ hc.1 hc.2.1 hl2⟩


theorem resolve_alert_ok (db : InvDB) (aid : Nat)
    (hg : InvGood db) (hl : LedgerInv db) :
    InvGood (resolve_alert db aid) ∧ LedgerInv (resolve_alert db aid) := by
  have hc := resolve_alert_core db aid
  exact ⟨invGood_transport _ _ hc.1 hc.2.1 hc.2.2.2 hg,
    ledgerInv_transport _ _ hc.1 hc.2.1 hl⟩

theorem applyInvOp_preserves (db : InvDB) (op : InvOp) (hop : createLogged op)
    (hg : InvGood db) (hl : LedgerInv db) :
    InvGood (applyInvOp db op) ∧ LedgerInv (applyInvOp db op) := by
  cases op with
  | createFabric q c t hc =>
    cases hc with
    | true => exact create_fabric_logged_ok db q c t hg hl
    | false => exact absurd hop (by simp [createLogged])
  | stockIn fid q n =>
    rcases hres : record_stock_in db fid q n with ⟨e?, db2⟩
    cases e? with
    | some e => simpa only [applyInvOp, hres] using And.intro hg hl
    | none => simpa only [applyInvOp, hres] using record_stock_in_ok db fid q n db2 hres hg hl
  | stockOut fid q oid n =>
    rcases hres : record_stock_out db fid q oid n with ⟨e?, db2⟩
    cases e? with
    | some e => simpa only [applyInvOp, hres] using And.intro hg hl
    | none => simpa only [applyInvOp, hres] using record_stock_out_ok db fid q oid n db2 hres hg hl
  | damage fid q n =>
    rcases hres : record_damage db fid q n with ⟨e?, db2⟩
    cases e? with
    | some e => simpa only [applyInvOp, hres] using And.intro hg hl
    | none => simpa only [applyInvOp, hres] using record_damage_ok db fid q n db2 hres hg hl
  | allocate oid onum fid q =>
    rcases hres : allocate_material db oid onum fid q with ⟨e?, db2⟩
    cases e? with
    | some e => simpa only [applyInvOp, hres] using And.intro hg hl
    | none => simpa only [applyInvOp, hres] using allocate_material_ok db oid onum fid q db2 hres hg hl
  | resolveAlert aid => exact resolve_alert_ok db aid hg hl

theorem runInvOps_preserves (ops : List InvOp) (db : InvDB)
    (hop : ∀ op ∈ ops, createLogged op)
    (hg : InvGood db) (hl : LedgerInv db) :
    InvGood (runInvOps db ops) ∧ LedgerInv (runInvOps db ops) := by
  induction ops generalizing db with
  | nil => exact ⟨hg, hl⟩
  | cons op ops ih =>
    have h1 := applyInvOp_preserves db op (hop op (by simp)) hg hl
    exact ih (applyInvOp db op) (fun o ho => hop o (by simp [ho])) h1.1 h1.2

/-- C5 counterexample: `create_fabric` called without a recording user
(`created_by=None`) sets the initial stock but, because of the `if created_by:`
guard, writes no IN ledger row, so the fabric quantity (5) differs from its
ledger sum (0). -/
theorem create_unlogged_breaks_ledger :
    ¬ LedgerInv (applyInvOp emptyInvDB (.createFabric 5 100 2 false)) := by
  intro h
  have := h ⟨0, 5, 100, 2⟩
    (by norm_num [applyInvOp, create_fabric, check_low_stock_alert, emptyInvDB])
  norm_num [ledgerSum, applyInvOp, create_fabric, check_low_stock_alert, emptyInvDB] at this

/-- C5 amended: after any sequence of inventory operations starting from the
empty inventory, in which every fabric creation passes a recording user (so
that the initial stock is logged), every fabric's `quantity_in_stock` equals
the running sum of signed deltas of its `StockTransaction` ledger rows. -/
theorem quantity_eq_ledger_sum (ops : List InvOp)
    (hop : ∀ op ∈ ops, createLogged op) :
    ∀ f ∈ (runInvOps emptyInvDB ops).fabrics,
      f.quantity_in_stock = ledgerSum f.id (runInvOps emptyInvDB ops).transactions := by
  have h := runInvOps_preserves ops emptyInvDB hop
    (by exact ⟨by simp [emptyInvDB], by simp [emptyInvDB], by simp [emptyInvDB]⟩)
    (by intro f hf; simp [emptyInvDB] at hf)
  exact h.2

/-- C5 amended witness: create (logged) 50, stock-in 20, allocate 45; the
resulting fabric holds 25 and its ledger sum is 25. -/
theorem quantity_eq_ledger_sum_witness :
    (⟨0, 25, 100, 10⟩ : FabricRec).quantity_in_stock =
      ledgerSum 0 (runInvOps emptyInvDB
        [.createFabric 50 100 10 true, .stockIn 0 20 "more",
         .allocate 7 "ORD-2026-0001" 0 45]).transactions := by
  have h := quantity_eq_ledger_sum
    [.createFabric 50 100 10 true, .stockIn 0 20 "more",
     .allocate 7 "ORD-2026-0001" 0 45]
    (by intro op hop; fin_cases hop <;> simp [createLogged])
  exact h ⟨0, 25, 100, 10⟩
    (by norm_num [runInvOps, applyInvOp, create_fabric, record_stock_in,
      allocate_material, record_stock_out, check_low_stock_alert, updateFabricQty,
      emptyInvDB, List.find?])

theorem create_fabric_fabrics (db : InvDB) (q c t : ℚ) (hc : Bool) :
    (create_fabric db q c t hc).1.fabrics =
      db.fabrics ++ [⟨db.next_fabric_id, q, c, t⟩] := by
  cases hc with
  | true =>
    exact (check_low_stock_alert_core { db with
      fabrics := db.fabrics ++ [⟨db.next_fabric_id, q, c, t⟩],
      transactions := db.transactions ++
        [⟨db.next_fabric_id, "IN", q, 0, q, none, "Initial stock entry"⟩],
      next_fabric_id := db.next_fabric_id + 1 } ⟨db.next_fabric_id, q, c, t⟩).1
  | false =>
    exact (check_low_stock_alert_core { db with
      fabrics := db.fabrics ++ [⟨db.next_fabric_id, q, c, t⟩],
      next_fabric_id := db.next_fabric_id + 1 } ⟨db.next_fabric_id, q, c, t⟩).1

theorem updateFabricQty_nonneg (db : InvDB) (fid : Nat) (newq : ℚ)
    (hq : 0 ≤ newq) (hn : ∀ f ∈ db.fabrics, 0 ≤ f.quantity_in_stock) :
    ∀ f ∈ (updateFabricQty db fid newq).fabrics, 0 ≤ f.quantity_in_stock := by
  intro f hf
  simp only [updateFabricQty, List.mem_map] at hf
  obtain ⟨g, hg1, rfl⟩ := hf
  by_cases h : g.id = fid
  · rw [if_pos h]
    exact hq
  · rw [if_neg h]
    exact hn g hg1

theorem record_stock_in_nonneg (db : InvDB) (fid : Nat) (q : ℚ) (n : String)
    (db' : InvDB) (h : record_stock_in db fid q n = (none, db')) (hq : 0 ≤ q)
    (hn : ∀ f ∈ db.fabrics, 0 ≤ f.quantity_in_stock) :
    ∀ f ∈ db'.fabrics, 0 ≤ f.quantity_in_stock := by
  unfold record_stock_in at h
  rcases hf : db.fabrics.find? (fun f => f.id = fid) with - | fabric
  · rw [hf] at h
    simp at h
  · rw [hf] at h
    simp only [Prod.mk.injEq] at h
    obtain ⟨-, h2⟩ := h
    rw [← h2]
    have hm : fabric ∈ db.fabrics := List.mem_of_find?_eq_some hf
    exact updateFabricQty_nonneg db fid _ (by have := hn fabric hm; positivity) hn

theorem record_stock_out_nonneg (db : InvDB) (fid : Nat) (q : ℚ) (oid : Option Nat)
    (n : String) (db' : InvDB) (h : record_stock_out db fid q oid n = (none, db'))
    (hn : ∀ f ∈ db.fabrics, 0 ≤ f.quantity_in_stock) :
    ∀ f ∈ db'.fabrics, 0 ≤ f.quantity_in_stock := by
  unfold record_stock_out at h
  rcases hf : db.fabrics.find? (fun f => f.id = fid) with - | fabric
  · rw [hf] at h
    simp at h
  · rw [hf] at h
    dsimp only at h
    split_ifs at h with hlt
    · simp at h
    · simp only [Prod.mk.injEq] at h
      obtain ⟨-, h2⟩ := h
      rw [← h2]
      intro f hfm
      rw [check_low_stock_alert_fabrics] at hfm
      dsimp only at hfm
      exact updateFabricQty_nonneg db fid _ (by linarith [not_lt.mp hlt]) hn f hfm

theorem record_damage_nonneg (db : InvDB) (fid : Nat) (q : ℚ)
    (n : String) (db' : InvDB) (h : record_damage db fid q n = (none, db'))
    (hn : ∀ f ∈ db.fabrics, 0 ≤ f.quantity_in_stock) :
    ∀ f ∈ db'.fabrics, 0 ≤ f.quantity_in_stock := by
  unfold record_damage at h
  rcases hf : db.fabrics.find? (fun f => f.id = fid) with - | fabric
  · rw [hf] at h
    simp at h
  · rw [hf] at h
    dsimp only at h
    split_ifs at h with hlt
    · simp at h
    · simp only [Prod.mk.injEq] at h
      obtain ⟨-, h2⟩ := h
      rw [← h2]
      intro f hfm
      rw [check_low_stock_alert_fabrics] at hfm
      dsimp only at hfm
      exact updateFabricQty_nonneg db fid _ (by linarith [not_lt.mp hlt]) hn f hfm

theorem allocate_material_nonneg (db : InvDB) (oid : Nat) (onum : String)
    (fid : Nat) (q : ℚ) (db' : InvDB)
    (h : allocate_material db oid onum fid q = (none, db'))
    (hn : ∀ f ∈ db.fabrics, 0 ≤ f.quantity_in_stock) :
    ∀ f ∈ db'.fabrics, 0 ≤ f.quantity_in_stock := by
  unfold allocate_material at h
  rcases hf : db.fabrics.find? (fun f => f.id = fid) with - | fabric
  · rw [hf] at h
    simp at h
  · rw [hf] at h
    dsimp only at h
    split_ifs at h with hlt
    · simp at h
    · exact record_stock_out_nonneg _ fid q (some oid) _ db' h hn

theorem applyInvOp_nonneg (db : InvDB) (op : InvOp) (hop : nonnegOp op)
    (hn : ∀ f ∈ db.fabrics, 0 ≤ f.quantity_in_stock) :
    ∀ f ∈ (applyInvOp db op).fabrics, 0 ≤ f.quantity_in_stock := by
  cases op with
  | createFabric q c t hc =>
    intro f hfm
    simp only [applyInvOp] at hfm
    rw [create_fabric_fabrics] at hfm
    simp only [List.mem_append, List.mem_singleton] at hfm
    rcases hfm with hfm | rfl
    · exact hn f hfm
    · exact hop
  | stockIn fid q n =>
    rcases hres : record_stock_in db fid q n with ⟨e?, db2⟩
    cases e? with
    | some e => simpa only [applyInvOp, hres] using hn
    | none => simpa only [applyInvOp, hres] using record_stock_in_nonneg db fid q n db2 hres hop hn
  | stockOut fid q oid n =>
    rcases hres : record_stock_out db fid q oid n with ⟨e?, db2⟩
    cases e? with
    | some e => simpa only [applyInvOp, hres] using hn
    | none => simpa only [applyInvOp, hres] using record_stock_out_nonneg db fid q oid n db2 hres hn
  | damage fid q n =>
    rcases hres : record_damage db fid q n with ⟨e?, db2⟩
    cases e? with
    | some e => simpa only [applyInvOp, hres] using hn
    | none => simpa only [applyInvOp, hres] using record_damage_nonneg db fid q n db2 hres hn
  | allocate oid onum fid q =>
    rcases hres : allocate_material db oid onum fid q with ⟨e?, db2⟩
    cases e? with
    | some e => simpa only [applyInvOp, hres] using hn
    | none => simpa only [applyInvOp, hres] using allocate_material_nonneg db oid onum fid q db2 hres hn
  | resolveAlert aid =>
    intro f hfm
    simp only [applyInvOp] at hfm
    rw [resolve_alert_fabrics] at hfm
    exact hn f hfm

theorem runInvOps_nonneg (ops : List InvOp) (db : InvDB)
    (hop : ∀ op ∈ ops, nonnegOp op)
    (hn : ∀ f ∈ db.fabrics, 0 ≤ f.quantity_in_stock) :
    ∀ f ∈ (runInvOps db ops).fabrics, 0 ≤ f.quantity_in_stock := by
  induction ops generalizing db with
  | nil => exact hn
  | cons op ops ih =>
    exact ih (applyInvOp db op) (fun o ho => hop o (by simp [ho]))
      (applyInvOp_nonneg db op (hop op (by simp)) hn)

/-- C6 counterexample: `record_stock_in` applies no guard to its quantity
(`new_qty = previous_qty + quantity` unconditionally), so over the service
layer as such the "never negative through any sequence of inventory service
operations" claim fails: creating a fabric with 10 in stock and then recording
a stock-in of -15 leaves `quantity_in_stock = -5`. -/
theorem stock_in_negative_breaks_nonneg :
    ¬ ∀ f ∈ (runInvOps emptyInvDB
        [.createFabric 10 100 2 true, .stockIn 0 (-15) "typo"]).fabrics,
      0 ≤ f.quantity_in_stock := by
  intro h
  have := h ⟨0, -5, 100, 2⟩
    (by norm_num [runInvOps, applyInvOp, create_fabric, record_stock_in,
      check_low_stock_alert, updateFabricQty, emptyInvDB, List.find?])
  norm_num at this

/-- C6 amended: a stock-out (or damage) of a quantity greater than the current
stock always fails with a `ValidationError` before any mutation (the state at
the raise is the incoming state); and for any operation sequence whose
fabric-creation and stock-in quantities are nonnegative (the bound every call
site's form enforces via `min_value=0.01`), no fabric quantity ever becomes
negative. Without that qualification the claim fails, since `record_stock_in`
has no quantity guard. -/
theorem stock_out_insufficient_guard (db : InvDB) (fid : Nat) (q : ℚ)
    (oid : Option Nat) (n n2 : String) (fabric : FabricRec)
    (hf : db.fabrics.find? (fun f => f.id = fid) = some fabric)
    (hlt : fabric.quantity_in_stock < q) :
    record_stock_out db fid q oid n = (some ⟨"ValidationError",
      "Insufficient stock. Available: " ++ toString fabric.quantity_in_stock ++
        "m, Required: " ++ toString q ++ "m"⟩, db) ∧
    record_damage db fid q n2 = (some ⟨"ValidationError",
      "Cannot record damage greater than available stock."⟩, db) ∧
    ∀ ops : List InvOp, (∀ op ∈ ops, nonnegOp op) →
      ∀ f ∈ (runInvOps emptyInvDB ops).fabrics, 0 ≤ f.quantity_in_stock := by
  refine ⟨?_, ?_, ?_⟩
  · unfold record_stock_out
    rw [hf]
    dsimp only
    rw [if_pos hlt]
  · unfold record_damage
    rw [hf]
    dsimp only
    rw [if_pos hlt]
  · intro ops hop
    exact runInvOps_nonneg ops emptyInvDB hop (by intro f hfm; simp [emptyInvDB] at hfm)

/-- C6 witness: a fabric with 10 in stock rejects a 15m stock-out and a 15m
damage record unchanged, and short nonnegative runs keep stock nonnegative. -/
theorem stock_out_insufficient_guard_witness :
    record_stock_out ⟨[⟨0, 10, 100, 2⟩], [], [], [], 1, 0⟩ 0 15 none "" =
      (some ⟨"ValidationError",
        "Insufficient stock. Available: " ++ toString (10 : ℚ) ++
          "m, Required: " ++ toString (15 : ℚ) ++ "m"⟩,
       ⟨[⟨0, 10, 100, 2⟩], [], [], [], 1, 0⟩) ∧
    record_damage ⟨[⟨0, 10, 100, 2⟩], [], [], [], 1, 0⟩ 0 15 "" =
      (some ⟨"ValidationError", "Cannot record damage greater than available stock."⟩,
       ⟨[⟨0, 10, 100, 2⟩], [], [], [], 1, 0⟩) ∧
    ∀ ops : List InvOp, (∀ op ∈ ops, nonnegOp op) →
      ∀ f ∈ (runInvOps emptyInvDB ops).fabrics, 0 ≤ f.quantity_in_stock :=
  stock_out_insufficient_guard ⟨[⟨0, 10, 100, 2⟩], [], [], [], 1, 0⟩ 0 15 none "" ""
    ⟨0, 10, 100, 2⟩ (by rfl) (by norm_num)


theorem length_filter_map_fabric (l : List AlertRec) (g : AlertRec → AlertRec)
    (hg : ∀ a, (g a).fabric_id = a.fabric_id) (fid : Nat) :
    ((l.map g).filter (fun a => a.fabric_id = fid)).length =
      (l.filter (fun a => a.fabric_id = fid)).length := by
  induction l with
  | nil => simp
  | cons a l ih =>
    simp only [List.map_cons, List.filter_cons, hg]
    by_cases h : a.fabric_id = fid <;> simp [h, ih]

theorem length_filter_and_le (l : List AlertRec) (p q : AlertRec → Bool) :
    (l.filter (fun a => p a && q a)).length ≤ (l.filter p).length := by
  induction l with
  | nil => simp
  | cons a l ih =>
    by_cases hp : p a
    · by_cases hq : q a <;> simp [List.filter_cons, hp, hq] <;> omega
    · simp [List.filter_cons, hp]
      exact ih

theorem check_alert_count_le (db : InvDB) (f : FabricRec)
    (h : AlertOk db) : AlertOk (check_low_stock_alert db f) := by
  intro fid
  unfold check_low_stock_alert
  split_ifs with h1
  · rcases hf : db.alerts.find? (fun a => a.fabric_id = f.id) with - | alert
    · simp only [hf]
      unfold alertCount
      dsimp only
      rw [List.filter_append]
      by_cases h2 : f.id = fid
      · have h0 : (db.alerts.filter (fun a => a.fabric_id = fid)).length = 0 := by
          rw [List.length_eq_zero, List.filter_eq_nil_iff]
          intro a ha
          have hne := List.find?_eq_none.mp hf a ha
          simp only [decide_eq_true_eq] at hne ⊢
          rw [← h2]
          exact hne
        rw [List.length_append, h0]
        simp [h2]
      · have hz : ((([⟨db.next_alert_id, f.id, false⟩] : List AlertRec)).filter
            (fun a => a.fabric_id = fid)).length = 0 := by simp [h2]
        rw [List.length_append, hz]
        simpa [alertCount] using h fid
    · simp only [hf]
      split_ifs with h3
      · unfold alertCount
        dsimp only
        rw [length_filter_map_fabric]
        · exact h fid
        · intro a
          by_cases ha : a.id = alert.id <;> simp [ha]
      · exact h fid
  · exact h fid

theorem alertOk_transport (db db' : InvDB) (ha : db'.alerts = db.alerts)
    (h : AlertOk db) : AlertOk db' := by
  intro fid
  unfold alertCount
  rw [ha]
  simpa [alertCount] using h fid


theorem record_stock_out_alertOk (db : InvDB) (fid : Nat) (q : ℚ) (oid : Option Nat)
    (n : String) (db' : InvDB) (h : record_stock_out db fid q oid n = (none, db'))
    (ha : AlertOk db) : AlertOk db' := by
  unfold record_stock_out at h
  rcases hf : db.fabrics.find? (fun f => f.id = fid) with - | fabric
  · rw [hf] at h
    simp at h
  · rw [hf] at h
    dsimp only at h
    split_ifs at h with hlt
    · simp at h
    · simp only [Prod.mk.injEq] at h
      obtain ⟨-, h2⟩ := h
      rw [← h2]
      exact check_alert_count_le _ _ (alertOk_transport db _ rfl ha)

theorem record_damage_alertOk (db : InvDB) (fid : Nat) (q : ℚ)
    (n : String) (db' : InvDB) (h : record_damage db fid q n = (none, db'))
    (ha : AlertOk db) : AlertOk db' := by
  unfold record_damage at h
  rcases hf : db.fabrics.find? (fun f => f.id = fid) with - | fabric
  · rw [hf] at h
    simp at h
  · rw [hf] at h
    dsimp only at h
    split_ifs at h with hlt
    · simp at h
    · simp only [Prod.mk.injEq] at h
      obtain ⟨-, h2⟩ := h
      rw [← h2]
      exact check_alert_count_le _ _ (alertOk_transport db _ rfl ha)

theorem record_stock_in_alertOk (db : InvDB) (fid : Nat) (q : ℚ)
    (n : String) (db' : InvDB) (h : record_stock_in db fid q n = (none, db'))
    (ha : AlertOk db) : AlertOk db' := by
  unfold record_stock_in at h
  rcases hf : db.fabrics.find? (fun f => f.id = fid) with - | fabric
  · rw [hf] at h
    simp at h
  · rw [hf] at h
    simp only [Prod.mk.injEq] at h
    obtain ⟨-, h2⟩ := h
    rw [← h2]
    exact alertOk_transport db _ rfl ha

theorem allocate_material_alertOk (db : InvDB) (oid : Nat) (onum : String)
    (fid : Nat) (q : ℚ) (db' : InvDB)
    (h : allocate_material db oid onum fid q = (none, db'))
    (ha : AlertOk db) : AlertOk db' := by
  unfold allocate_material at h
  rcases hf : db.fabrics.find? (fun f => f.id = fid) with - | fabric
  · rw [hf] at h
    simp at h
  · rw [hf] at h
    dsimp only at h
    split_ifs at h with hlt
    · simp at h
    · exact record_stock_out_alertOk _ fid q (some oid) _ db' h
        (alertOk_transport db _ rfl ha)

theorem resolve_alert_alertOk (db : InvDB) (aid : Nat) (ha : AlertOk db) :
    AlertOk (resolve_alert db aid) := by
  intro fid
  unfold resolve_alert alertCount
  dsimp only
  rw [length_filter_map_fabric]
  · exact ha fid
  · intro a
    by_cases h : a.id = aid <;> simp [h]

theorem create_fabric_alertOk (db : InvDB) (q c t : ℚ) (hc : Bool)
    (ha : AlertOk db) : AlertOk (create_fabric db q c t hc).1 := by
  cases hc with
  | true =>
    exact check_alert_count_le _ _ (alertOk_transport db _ rfl ha)
  | false =>
    exact check_alert_count_le _ _ (alertOk_transport db _ rfl ha)

theorem applyInvOp_alertOk (db : InvDB) (op : InvOp) (ha : AlertOk db) :
    AlertOk (applyInvOp db op) := by
  cases op with
  | createFabric q c t hc =>
    simpa only [applyInvOp] using create_fabric_alertOk db q c t hc ha
  | stockIn fid q n =>
    rcases hres : record_stock_in db fid q n with ⟨e?, db2⟩
    cases e? with
    | some e => simpa only [applyInvOp, hres] using ha
    | none => simpa only [applyInvOp, hres] using record_stock_in_alertOk db fid q n db2 hres ha
  | stockOut fid q oid n =>
    rcases hres : record_stock_out db fid q oid n with ⟨e?, db2⟩
    cases e? with
    | some e => simpa only [applyInvOp, hres] using ha
    | none => simpa only [applyInvOp, hres] using record_stock_out_alertOk db fid q oid n db2 hres ha
  | damage fid q n =>
    rcases hres : record_damage db fid q n with ⟨e?, db2⟩
    cases e? with
    | some e => simpa only [applyInvOp, hres] using ha
    | none => simpa only [applyInvOp, hres] using record_damage_alertOk db fid q n db2 hres ha
  | allocate oid onum fid q =>
    rcases hres : allocate_material db oid onum fid q with ⟨e?, db2⟩
    cases e? with
    | some e => simpa only [applyInvOp, hres] using ha
    | none => simpa only [applyInvOp, hres] using allocate_material_alertOk db oid onum fid q db2 hres ha
  | resolveAlert aid =>
    simpa only [applyInvOp] using resolve_alert_alertOk db aid ha

theorem runInvOps_alertOk (ops : List InvOp) (db : InvDB) (ha : AlertOk db) :
    AlertOk (runInvOps db ops) := by
  induction ops generalizing db with
  | nil => exact ha
  | cons op ops ih => exact ih (applyInvOp db op) (applyInvOp_alertOk db op ha)

/-- C7: when a stock level at or below the threshold is checked: with no alert
record for the fabric exactly one new open alert is appended; with an existing
unresolved alert nothing changes; with an existing resolved alert the same
record is reactivated in place (no new record). Moreover, over any operation
sequence from the empty inventory, each fabric has at most one unresolved
alert at any time. -/
theorem low_stock_alert_lifecycle (db : InvDB) (fabric : FabricRec)
    (hthr : fabric.quantity_in_stock ≤ fabric.reorder_threshold) :
    (db.alerts.find? (fun a => a.fabric_id = fabric.id) = none →
      (check_low_stock_alert db fabric).alerts =
        db.alerts ++ [⟨db.next_alert_id, fabric.id, false⟩]) ∧
    (∀ alert, db.alerts.find? (fun a => a.fabric_id = fabric.id) = some alert →
      alert.is_resolved = false → check_low_stock_alert db fabric = db) ∧
    (∀ alert, db.alerts.find? (fun a => a.fabric_id = fabric.id) = some alert →
      alert.is_resolved = true →
      (check_low_stock_alert db fabric).alerts =
        db.alerts.map fun (a : AlertRec) =>
          if a.id = alert.id then { a with is_resolved := false } else a) ∧
    (∀ ops : List InvOp, ∀ fid,
      unresolvedAlertCount (runInvOps emptyInvDB ops) fid ≤ 1) := by
  refine ⟨?_, ?_, ?_, ?_⟩
  · intro hnone
    unfold check_low_stock_alert
    rw [if_pos hthr, hnone]
  · intro alert hsome hres
    unfold check_low_stock_alert
    rw [if_pos hthr, hsome]
    dsimp only
    rw [if_neg (by rw [hres]; simp)]
  · intro alert hsome hres
    unfold check_low_stock_alert
    rw [if_pos hthr, hsome]
    dsimp only
    rw [if_pos hres]
  · intro ops fid
    have h1 : AlertOk (runInvOps emptyInvDB ops) :=
      runInvOps_alertOk ops emptyInvDB (by intro fid2; simp [alertCount, emptyInvDB])
    calc unresolvedAlertCount (runInvOps emptyInvDB ops) fid
        ≤ alertCount (runInvOps emptyInvDB ops) fid :=
          length_filter_and_le _ _ _
      _ ≤ 1 := h1 fid

/-- C7 witness: a fabric at its threshold with no alert yet gets exactly one
open alert; with that alert unresolved nothing changes; after resolving, the
same record is reactivated. -/
theorem low_stock_alert_lifecycle_witness :
    ((⟨[⟨0, 2, 100, 5⟩], [], [], [], 1, 0⟩ : InvDB).alerts.find?
        (fun a => a.fabric_id = (⟨0, 2, 100, 5⟩ : FabricRec).id) = none →
      (check_low_stock_alert ⟨[⟨0, 2, 100, 5⟩], [], [], [], 1, 0⟩ ⟨0, 2, 100, 5⟩).alerts =
        (⟨[⟨0, 2, 100, 5⟩], [], [], [], 1, 0⟩ : InvDB).alerts ++
          [⟨(⟨[⟨0, 2, 100, 5⟩], [], [], [], 1, 0⟩ : InvDB).next_alert_id,
            (⟨0, 2, 100, 5⟩ : FabricRec).id, false⟩]) ∧
    (∀ alert, (⟨[⟨0, 2, 100, 5⟩], [], [], [], 1, 0⟩ : InvDB).alerts.find?
        (fun a => a.fabric_id = (⟨0, 2, 100, 5⟩ : FabricRec).id) = some alert →
      alert.is_resolved = false →
      check_low_stock_alert ⟨[⟨0, 2, 100, 5⟩], [], [], [], 1, 0⟩ ⟨0, 2, 100, 5⟩ =
        ⟨[⟨0, 2, 100, 5⟩], [], [], [], 1, 0⟩) ∧
    (∀ alert, (⟨[⟨0, 2, 100, 5⟩], [], [], [], 1, 0⟩ : InvDB).alerts.find?
        (fun a => a.fabric_id = (⟨0, 2, 100, 5⟩ : FabricRec).id) = some alert →
      alert.is_resolved = true →
      (check_low_stock_alert ⟨[⟨0, 2, 100, 5⟩], [], [], [], 1, 0⟩ ⟨0, 2, 100, 5⟩).alerts =
        (⟨[⟨0, 2, 100, 5⟩], [], [], [], 1, 0⟩ : InvDB).alerts.map fun (a : AlertRec) =>
          if a.id = alert.id then { a with is_resolved := false } else a) ∧
    (∀ ops : List InvOp, ∀ fid,
      unresolvedAlertCount (runInvOps emptyInvDB ops) fid ≤ 1) :=
  low_stock_alert_lifecycle ⟨[⟨0, 2, 100, 5⟩], [], [], [], 1, 0⟩ ⟨0, 2, 100, 5⟩
    (by norm_num)


theorem check_low_stock_alert_transactions (db : InvDB) (f : FabricRec) :
    (check_low_stock_alert db f).transactions = db.transactions :=
  (check_low_stock_alert_core db f).2.1

theorem check_low_stock_alert_allocations (db : InvDB) (f : FabricRec) :
    (check_low_stock_alert db f).allocations = db.allocations :=
  (check_low_stock_alert_core db f).2.2.1

/-- C8: material allocation with sufficient stock creates exactly one
allocation record whose `unit_cost` snapshots the fabric's current
`cost_per_meter`, deducts exactly the requested quantity from the fabric, and
appends one OUT ledger row tagged with the order; with insufficient stock it
raises a `ValidationError` reporting available versus requested quantities,
with the state at the raise unchanged. -/
theorem allocate_material_contract (db : InvDB) (oid : Nat) (onum : String)
    (fid : Nat) (q : ℚ) (fabric : FabricRec)
    (hf : db.fabrics.find? (fun f => f.id = fid) = some fabric) :
    (fabric.quantity_in_stock < q →
      allocate_material db oid onum fid q =
        (some ⟨"ValidationError",
          "Insufficient stock. Available: " ++ toString fabric.quantity_in_stock ++
            "m, Required: " ++ toString q ++ "m"⟩, db)) ∧
    (q ≤ fabric.quantity_in_stock →
      (allocate_material db oid onum fid q).1 = none ∧
      (allocate_material db oid onum fid q).2.allocations =
        db.allocations ++ [⟨oid, fid, q, fabric.cost_per_meter⟩] ∧
      (allocate_material db oid onum fid q).2.transactions =
        db.transactions ++ [⟨fid, "OUT", q, fabric.quantity_in_stock,
          fabric.quantity_in_stock - q, some oid, "Allocated for order " ++ onum⟩] ∧
      (allocate_material db oid onum fid q).2.fabrics =
        db.fabrics.map fun (f : FabricRec) => if f.id = fid then
          { f with quantity_in_stock := fabric.quantity_in_stock - q } else f) := by
  constructor
  · intro hlt
    unfold allocate_material
    rw [hf]
    dsimp only
    rw [if_pos hlt]
  · intro hq
    have hlt : ¬ fabric.quantity_in_stock < q := not_lt.mpr hq
    unfold allocate_material
    rw [hf]
    dsimp only
    rw [if_neg hlt]
    unfold record_stock_out
    dsimp only
    rw [hf]
    dsimp only
    rw [if_neg hlt]
    refine ⟨rfl, ?_, ?_, ?_⟩
    · rw [check_low_stock_alert_allocations]
      dsimp only [updateFabricQty]
    · rw [check_low_stock_alert_transactions]
      dsimp only [updateFabricQty]
    · rw [check_low_stock_alert_fabrics]
      dsimp only [updateFabricQty]

/-- C8 witness: allocating 45 of 50 in stock succeeds with a cost snapshot and
an OUT ledger row. -/
theorem allocate_material_contract_witness :
    ((⟨0, 50, 100, 10⟩ : FabricRec).quantity_in_stock < 45 →
      allocate_material ⟨[⟨0, 50, 100, 10⟩], [], [], [], 1, 0⟩ 7 "ORD-2026-0001" 0 45 =
        (some ⟨"ValidationError",
          "Insufficient stock. Available: " ++
            toString (⟨0, 50, 100, 10⟩ : FabricRec).quantity_in_stock ++
            "m, Required: " ++ toString (45 : ℚ) ++ "m"⟩,
         ⟨[⟨0, 50, 100, 10⟩], [], [], [], 1, 0⟩)) ∧
    ((45 : ℚ) ≤ (⟨0, 50, 100, 10⟩ : FabricRec).quantity_in_stock →
      (allocate_material ⟨[⟨0, 50, 100, 10⟩], [], [], [], 1, 0⟩ 7 "ORD-2026-0001" 0 45).1 =
        none ∧
      (allocate_material ⟨[⟨0, 50, 100, 10⟩], [], [], [], 1, 0⟩ 7 "ORD-2026-0001" 0 45).2.allocations =
        ([] : List AllocationRec) ++
          [⟨7, 0, 45, (⟨0, 50, 100, 10⟩ : FabricRec).cost_per_meter⟩] ∧
      (allocate_material ⟨[⟨0, 50, 100, 10⟩], [], [], [], 1, 0⟩ 7 "ORD-2026-0001" 0 45).2.transactions =
        ([] : List StockTx) ++ [⟨0, "OUT", 45, (⟨0, 50, 100, 10⟩ : FabricRec).quantity_in_stock,
          (⟨0, 50, 100, 10⟩ : FabricRec).quantity_in_stock - 45, some 7,
          "Allocated for order " ++ "ORD-2026-0001"⟩] ∧
      (allocate_material ⟨[⟨0, 50, 100, 10⟩], [], [], [], 1, 0⟩ 7 "ORD-2026-0001" 0 45).2.fabrics =
        [(⟨0, 50, 100, 10⟩ : FabricRec)].map fun (f : FabricRec) => if f.id = 0 then
          { f with quantity_in_stock :=
              (⟨0, 50, 100, 10⟩ : FabricRec).quantity_in_stock - 45 } else f) :=
  allocate_material_contract ⟨[⟨0, 50, 100, 10⟩], [], [], [], 1, 0⟩ 7 "ORD-2026-0001"
    0 45 ⟨0, 50, 100, 10⟩ (by rfl)


theorem process_webhook_success_shape (handlerOk : Bool) (db : WebhookDB)
    (ev : EventData) (b : Bool) (db' : WebhookDB)
    (h : process_webhook handlerOk db ev = .ok (b, db')) :
    (b = false ∧ db' = db) ∨
    (b = true ∧ eventRecorded db (effectiveEventId ev) = false ∧
      eventRecorded db' (effectiveEventId ev) = true ∧
      effectCount db' (effectiveEventId ev) ≤
        effectCount db (effectiveEventId ev) + 1) := by
  unfold process_webhook at h
  by_cases hdup : eventRecorded db (effectiveEventId ev)
  · rw [if_pos hdup] at h
    simp only [Except.ok.injEq, Prod.mk.injEq] at h
    exact Or.inl ⟨h.1.symm, h.2.symm⟩
  · rw [if_neg hdup] at h
    dsimp only at h
    split_ifs at h <;>
      first
      | exact (Except.noConfusion h)
      | (simp only [Except.ok.injEq, Prod.mk.injEq] at h
         obtain ⟨hb, hdb⟩ := h
         refine Or.inr ⟨hb.symm, by simpa using hdup, ?_, ?_⟩ <;>
           rw [← hdb] <;>
           simp [eventRecorded, effectCount, List.filter_append])


theorem runWebhooks_bound (deliveries : List (Bool × EventData)) (eid : Option String)
    (hall : ∀ d ∈ deliveries, effectiveEventId d.2 = eid) (db : WebhookDB)
    (hinv : effectCount db eid ≤ if eventRecorded db eid then 1 else 0) :
    effectCount (runWebhooks db deliveries) eid ≤
      if eventRecorded (runWebhooks db deliveries) eid then 1 else 0 := by
  induction deliveries generalizing db with
  | nil => exact hinv
  | cons d ds ih =>
    have hd : effectiveEventId d.2 = eid := hall d (by simp)
    refine ih (fun x hx => hall x (by simp [hx])) _ ?_
    rcases hres : process_webhook d.1 db d.2 with e | ⟨b, db'⟩
    · simpa only [hres] using hinv
    · rcases process_webhook_success_shape d.1 db d.2 b db' hres with
        ⟨rfl, rfl⟩ | ⟨rfl, hrec0, hrec1, hcnt⟩
      · simpa only [hres] using hinv
      · rw [hd] at hrec0 hrec1 hcnt
        have h0 : effectCount db eid = 0 := by
          rw [hrec0] at hinv
          simpa using hinv
        simp only [hres, hrec1, if_pos]
        omega

/-- C10: a webhook delivery whose event id already exists in the webhook-event
ledger is reported as not processed and leaves the state unchanged (no side
effects); and across any sequence of deliveries sharing one event id, the
committed payment/refund side effects execute at most once. -/
theorem webhook_at_most_once (db : WebhookDB) (ev : EventData) (handlerOk : Bool)
    (hdup : eventRecorded db (effectiveEventId ev) = true) :
    process_webhook handlerOk db ev = Except.ok (false, db) ∧
    (∀ deliveries : List (Bool × EventData), ∀ eid : Option String,
      (∀ d ∈ deliveries, effectiveEventId d.2 = eid) →
      effectCount (runWebhooks emptyWebhookDB deliveries) eid ≤ 1) := by
  constructor
  · unfold process_webhook
    rw [if_pos hdup]
  · intro deliveries eid hall
    have h := runWebhooks_bound deliveries eid hall emptyWebhookDB
      (by simp [effectCount, eventRecorded, emptyWebhookDB])
    split_ifs at h <;> omega

/-- C10 witness: redelivering an already-recorded event id is a no-op reported
as not processed. -/
theorem webhook_at_most_once_witness :
    process_webhook true
      ⟨[⟨some "evt_1", some "payment.captured", "success"⟩], [("payment.captured", some "evt_1")]⟩
      ⟨some "evt_1", none, some "payment.captured"⟩ =
      Except.ok (false,
        ⟨[⟨some "evt_1", some "payment.captured", "success"⟩], [("payment.captured", some "evt_1")]⟩) ∧
    (∀ deliveries : List (Bool × EventData), ∀ eid : Option String,
      (∀ d ∈ deliveries, effectiveEventId d.2 = eid) →
      effectCount (runWebhooks emptyWebhookDB deliveries) eid ≤ 1) :=
  webhook_at_most_once
    ⟨[⟨some "evt_1", some "payment.captured", "success"⟩], [("payment.captured", some "evt_1")]⟩
    ⟨some "evt_1", none, some "payment.captured"⟩ true (by decide)


theorem toDigitsCore_of_lt (f n : Nat) (l : List Char) (h : n < 10) (hf : 0 < f) :
    Nat.toDigitsCore 10 f n l = Nat.digitChar n :: l := by
  cases f with
  | zero => omega
  | succ f =>
    unfold Nat.toDigitsCore
    have h1 : n / 10 = 0 := Nat.div_eq_of_lt h
    have h2 : n % 10 = n := Nat.mod_eq_of_lt h
    simp [h1, h2]

theorem toDigitsCore_step (f n : Nat) (l : List Char) (h : 10 ≤ n) :
    Nat.toDigitsCore 10 (f + 1) n l =
      Nat.toDigitsCore 10 f (n / 10) (Nat.digitChar (n % 10) :: l) := by
  conv_lhs => unfold Nat.toDigitsCore
  have h1 : ¬ n / 10 = 0 := by omega
  simp [h1]

theorem repr_data_1 (n : Nat) (h : n < 10) :
    (Nat.repr n).data = [Nat.digitChar n] := by
  show Nat.toDigitsCore 10 (n + 1) n [] = _
  rw [toDigitsCore_of_lt _ _ _ h (by omega)]

theorem repr_data_2 (n : Nat) (h1 : 10 ≤ n) (h2 : n < 100) :
    (Nat.repr n).data = [Nat.digitChar (n / 10), Nat.digitChar (n % 10)] := by
  show Nat.toDigitsCore 10 (n + 1) n [] = _
  rw [toDigitsCore_step _ _ _ h1, toDigitsCore_of_lt _ _ _ (by omega) (by omega)]

theorem repr_data_3 (n : Nat) (h1 : 100 ≤ n) (h2 : n < 1000) :
    (Nat.repr n).data =
      [Nat.digitChar (n / 100), Nat.digitChar (n / 10 % 10), Nat.digitChar (n % 10)] := by
  show Nat.toDigitsCore 10 (n + 1) n [] = _
  obtain ⟨f, hf⟩ : ∃ f, n = f + 1 := ⟨n - 1, by omega⟩
  rw [hf, toDigitsCore_step _ _ _ (by omega), toDigitsCore_step _ _ _ (by omega),
    toDigitsCore_of_lt _ _ _ (by omega) (by omega)]
  have : (f + 1) / 10 / 10 = (f + 1) / 100 := by omega
  rw [this]

theorem repr_data_4 (n : Nat) (h1 : 1000 ≤ n) (h2 : n < 10000) :
    (Nat.repr n).data =
      [Nat.digitChar (n / 1000), Nat.digitChar (n / 100 % 10),
       Nat.digitChar (n / 10 % 10), Nat.digitChar (n % 10)] := by
  show Nat.toDigitsCore 10 (n + 1) n [] = _
  obtain ⟨f, hf⟩ : ∃ f, n = f + 2 := ⟨n - 2, by omega⟩
  rw [hf, toDigitsCore_step _ _ _ (by omega), toDigitsCore_step _ _ _ (by omega),
    toDigitsCore_step _ _ _ (by omega), toDigitsCore_of_lt _ _ _ (by omega) (by omega)]
  have e1 : (f + 2) / 10 / 10 = (f + 2) / 100 := by omega
  have e2 : (f + 2) / 100 / 10 = (f + 2) / 1000 := by omega
  rw [e1, e2]


theorem digitChar_isDigit (d : Nat) (h : d < 10) : (Nat.digitChar d).isDigit = true := by
  interval_cases d <;> decide

theorem digitChar_toNat (d : Nat) (h : d < 10) :
    (Nat.digitChar d).toNat - ('0').toNat = d := by
  interval_cases d <;> decide

theorem digitChar_ne_dash (d : Nat) (h : d < 10) : ¬ Nat.digitChar d = '-' := by
  interval_cases d <;> decide

theorem digitChar_lt_iff (x y : Nat) (hx : x < 10) (hy : y < 10) :
    Nat.digitChar x < Nat.digitChar y ↔ x < y := by
  interval_cases x <;> interval_cases y <;> decide

theorem pad4_data (k : Nat) (h : k ≤ 9999) :
    (pad4 k).data = [Nat.digitChar (k / 1000 % 10), Nat.digitChar (k / 100 % 10),
      Nat.digitChar (k / 10 % 10), Nat.digitChar (k % 10)] := by
  unfold pad4
  dsimp only
  by_cases c1 : k < 10
  · rw [show (toString k).length = 1 by
      show (Nat.repr k).data.length = 1
      rw [repr_data_1 k c1]
      rfl]
    rw [if_pos (by omega)]
    show List.replicate 3 '0' ++ (Nat.repr k).data = _
    rw [repr_data_1 k c1]
    have e0 : k / 1000 % 10 = 0 := by omega
    have e1 : k / 100 % 10 = 0 := by omega
    have e2 : k / 10 % 10 = 0 := by omega
    have e3 : k % 10 = k := by omega
    rw [e0, e1, e2, e3]
    rfl
  · by_cases c2 : k < 100
    · rw [show (toString k).length = 2 by
        show (Nat.repr k).data.length = 2
        rw [repr_data_2 k (by omega) c2]
        rfl]
      rw [if_pos (by omega)]
      show List.replicate 2 '0' ++ (Nat.repr k).data = _
      rw [repr_data_2 k (by omega) c2]
      have e0 : k / 1000 % 10 = 0 := by omega
      have e1 : k / 100 % 10 = 0 := by omega
      have e2 : k / 10 % 10 = k / 10 := by omega
      rw [e0, e1, e2]
      rfl
    · by_cases c3 : k < 1000
      · rw [show (toString k).length = 3 by
          show (Nat.repr k).data.length = 3
          rw [repr_data_3 k (by omega) c3]
          rfl]
        rw [if_pos (by omega)]
        show List.replicate 1 '0' ++ (Nat.repr k).data = _
        rw [repr_data_3 k (by omega) c3]
        have e0 : k / 1000 % 10 = 0 := by omega
        have e1 : k / 100 % 10 = k / 100 := by omega
        rw [e0, e1]
        rfl
      · rw [show (toString k).length = 4 by
          show (Nat.repr k).data.length = 4
          rw [repr_data_4 k (by omega) (by omega)]
          rfl]
        rw [if_neg (by omega)]
        show (Nat.repr k).data = _
        rw [repr_data_4 k (by omega) (by omega)]
        have e0 : k / 1000 % 10 = k / 1000 := by omega
        rw [e0]


theorem toNatDigits?_pad4 (k : Nat) (h : k ≤ 9999) :
    toNatDigits? (pad4 k).data = some k := by
  rw [pad4_data k h]
  unfold toNatDigits?
  rw [if_pos]
  · simp only [List.foldl]
    rw [digitChar_toNat _ (by omega), digitChar_toNat _ (by omega),
      digitChar_toNat _ (by omega), digitChar_toNat _ (by omega)]
    congr 1
    omega
  · refine ⟨by simp, ?_⟩
    simp only [List.all_cons, List.all_nil, Bool.and_eq_true]
    exact ⟨digitChar_isDigit _ (by omega), digitChar_isDigit _ (by omega),
      digitChar_isDigit _ (by omega), digitChar_isDigit _ (by omega), trivial⟩

theorem pad4_no_dash (k : Nat) (h : k ≤ 9999) :
    ∀ c ∈ (pad4 k).data, ¬ c = '-' := by
  rw [pad4_data k h]
  intro c hc
  simp only [List.mem_cons, List.not_mem_nil, or_false] at hc
  rcases hc with rfl | rfl | rfl | rfl
  · exact digitChar_ne_dash _ (by omega)
  · exact digitChar_ne_dash _ (by omega)
  · exact digitChar_ne_dash _ (by omega)
  · exact digitChar_ne_dash _ (by omega)

theorem lexLt_pad4_iff (a b : Nat) (ha : a ≤ 9999) (hb : b ≤ 9999) :
    lexLt (pad4 a).data (pad4 b).data = true ↔ a < b := by
  rw [pad4_data a ha, pad4_data b hb]
  have m3 := digitChar_lt_iff (a / 1000 % 10) (b / 1000 % 10) (by omega) (by omega)
  have m3' := digitChar_lt_iff (b / 1000 % 10) (a / 1000 % 10) (by omega) (by omega)
  have m2 := digitChar_lt_iff (a / 100 % 10) (b / 100 % 10) (by omega) (by omega)
  have m2' := digitChar_lt_iff (b / 100 % 10) (a / 100 % 10) (by omega) (by omega)
  have m1 := digitChar_lt_iff (a / 10 % 10) (b / 10 % 10) (by omega) (by omega)
  have m1' := digitChar_lt_iff (b / 10 % 10) (a / 10 % 10) (by omega) (by omega)
  have m0 := digitChar_lt_iff (a % 10) (b % 10) (by omega) (by omega)
  have m0' := digitChar_lt_iff (b % 10) (a % 10) (by omega) (by omega)
  simp only [lexLt]
  split_ifs <;> simp_all <;> omega


theorem splitDash_ne_nil (cs : List Char) : splitDash cs ≠ [] := by
  induction cs with
  | nil => simp [splitDash]
  | cons c cs ih =>
    unfold splitDash
    split_ifs
    · simp
    · rcases hs : splitDash cs with - | ⟨h, t⟩
      · simp
      · simp

theorem splitDash_nodash (cs : List Char) (h : ∀ c ∈ cs, ¬ c = '-') :
    splitDash cs = [cs] := by
  induction cs with
  | nil => rfl
  | cons c cs ih =>
    unfold splitDash
    rw [if_neg (h c (by simp))]
    rw [ih (fun x hx => h x (by simp [hx]))]

theorem splitDash_length_ge_two (cs : List Char) (h : '-' ∈ cs) :
    2 ≤ (splitDash cs).length := by
  induction cs with
  | nil => simp at h
  | cons c cs ih =>
    unfold splitDash
    by_cases hc : c = '-'
    · rw [if_pos hc]
      have := splitDash_ne_nil cs
      simp only [List.length_cons]
      have : 1 ≤ (splitDash cs).length := by
        cases hs : splitDash cs with
        | nil => exact absurd hs (splitDash_ne_nil cs)
        | cons a b => simp
      omega
    · rw [if_neg hc]
      have hmem : '-' ∈ cs := by
        rcases List.mem_cons.mp h with h1 | h1
        · exact absurd h1.symm hc
        · exact h1
      rcases hs : splitDash cs with - | ⟨hd, tl⟩
      · exact absurd hs (splitDash_ne_nil cs)
      · have := ih hmem
        rw [hs] at this
        simp only [List.length_cons] at this ⊢
        omega

theorem splitDash_getLast_after_dash (l r : List Char) (hr : ∀ c ∈ r, ¬ c = '-') :
    (splitDash (l ++ '-' :: r)).getLastD [] = r := by
  induction l with
  | nil =>
    show (splitDash ('-' :: r)).getLastD [] = r
    unfold splitDash
    rw [if_pos rfl, splitDash_nodash r hr]
    rfl
  | cons c l ih =>
    show (splitDash (c :: (l ++ '-' :: r))).getLastD [] = r
    unfold splitDash
    by_cases hc : c = '-'
    · rw [if_pos hc]
      rcases hs : splitDash (l ++ '-' :: r) with - | ⟨hd, tl⟩
      · exact absurd hs (splitDash_ne_nil _)
      · rw [hs] at ih
        simpa using ih
    · rw [if_neg hc]
      rcases hs : splitDash (l ++ '-' :: r) with - | ⟨hd, tl⟩
      · exact absurd hs (splitDash_ne_nil _)
      · have hlen := splitDash_length_ge_two (l ++ '-' :: r) (by simp)
        rw [hs] at hlen ih
        simp only [List.length_cons] at hlen
        rcases tl with - | ⟨x, xs⟩
        · simp at hlen
        · simpa using ih

theorem lexLt_append_left (p s t : List Char) :
    lexLt (p ++ s) (p ++ t) = lexLt s t := by
  induction p with
  | nil => rfl
  | cons c p ih =>
    show lexLt (c :: (p ++ s)) (c :: (p ++ t)) = _
    conv_lhs => unfold lexLt
    have : ¬ c < c := by
      simp [Char.lt_iff_val_lt_val]
    rw [if_neg this, if_neg this]
    exact ih


theorem lexLt_trans (a b c : List Char) (h1 : lexLt a b = true) (h2 : lexLt b c = true) :
    lexLt a c = true := by
  induction a generalizing b c with
  | nil =>
    cases c with
    | nil =>
      cases b with
      | nil => simp [lexLt] at h2
      | cons y ys => simp [lexLt] at h2
    | cons z zs => simp [lexLt]
  | cons x xs ih =>
    cases b with
    | nil => simp [lexLt] at h1
    | cons y ys =>
      cases c with
      | nil => simp [lexLt] at h2
      | cons z zs =>
        simp only [lexLt] at h1 h2 ⊢
        rcases lt_trichotomy x y with hxy | rfl | hxy
        · rcases lt_trichotomy y z with hyz | rfl | hyz
          · rw [if_pos (lt_trans hxy hyz)]
          · rw [if_pos hxy]
          · rw [if_neg (lt_asymm hyz), if_pos hyz] at h2
            exact absurd h2 (by simp)
        · rcases lt_trichotomy x z with hxz | rfl | hxz
          · rw [if_pos hxz]
          · rw [if_neg (lt_irrefl x), if_neg (lt_irrefl x)] at h1
            rw [if_neg (lt_irrefl x), if_neg (lt_irrefl x)] at h2
            rw [if_neg (lt_irrefl x), if_neg (lt_irrefl x)]
            exact ih ys zs h1 h2
          · rw [if_neg (lt_asymm hxz), if_pos hxz] at h2
            exact absurd h2 (by simp)
        · rw [if_neg (lt_asymm hxy), if_pos hxy] at h1
          exact absurd h1 (by simp)

theorem lexLt_eq_of_not (a b : List Char) (h1 : lexLt a b = false)
    (h2 : lexLt b a = false) : a = b := by
  induction a generalizing b with
  | nil =>
    cases b with
    | nil => rfl
    | cons y ys => simp [lexLt] at h1
  | cons x xs ih =>
    cases b with
    | nil => simp [lexLt] at h2
    | cons y ys =>
      simp only [lexLt] at h1 h2
      rcases lt_trichotomy x y with hxy | rfl | hxy
      · rw [if_pos hxy] at h1
        exact absurd h1 (by simp)
      · rw [if_neg (lt_irrefl x), if_neg (lt_irrefl x)] at h1
        rw [if_neg (lt_irrefl x), if_neg (lt_irrefl x)] at h2
        rw [ih ys h1 h2]
      · rw [if_pos hxy] at h2
        exact absurd h2 (by simp)

theorem lexLt_not_trans (a b c : List Char) (h1 : lexLt a b = false)
    (h2 : lexLt b c = false) : lexLt a c = false := by
  by_contra h
  have hac : lexLt a c = true := by
    cases hx : lexLt a c with
    | true => rfl
    | false => exact absurd hx h
  by_cases hba : lexLt b a = true
  · have := lexLt_trans b a c hba hac
    rw [this] at h2
    exact absurd h2 (by simp)
  · have hba' : lexLt b a = false := by
      cases hx : lexLt b a with
      | true => exact absurd hx hba
      | false => rfl
    obtain rfl := lexLt_eq_of_not a b h1 hba'
    rw [hac] at h2
    exact absurd h2 (by simp)


theorem lexLt_irrefl (a : List Char) : lexLt a a = false := by
  induction a with
  | nil => rfl
  | cons x xs ih =>
    unfold lexLt
    rw [if_neg (lt_irrefl x), if_neg (lt_irrefl x)]
    exact ih

theorem lexLt_false_of_false_of_true (a b c : List Char)
    (h1 : lexLt a c = false) (h2 : lexLt b c = true) : lexLt a b = false := by
  cases hx : lexLt a b with
  | false => rfl
  | true =>
    rw [lexLt_trans a b c hx h2] at h1
    exact absurd h1 (by simp)

theorem foldl_lexMax_go (l : List String) (m : String) :
    ∃ m', l.foldl (fun acc s =>
        match acc with
        | none => some s
        | some m => if lexLt m.data s.data then some s else some m) (some m) = some m' ∧
      (m' = m ∨ m' ∈ l) ∧ lexLt m'.data m.data = false ∧
      ∀ x ∈ l, lexLt m'.data x.data = false := by
  induction l generalizing m with
  | nil => exact ⟨m, rfl, Or.inl rfl, lexLt_irrefl m.data, by simp⟩
  | cons s l ih =>
    show ∃ m', l.foldl _ (if lexLt m.data s.data then some s else some m) = some m' ∧ _
    by_cases hms : lexLt m.data s.data = true
    · rw [if_pos hms]
      obtain ⟨m', h1, h2, h3, h4⟩ := ih s
      refine ⟨m', h1, ?_, ?_, ?_⟩
      · rcases h2 with rfl | h2
        · exact Or.inr (by simp)
        · exact Or.inr (by simp [h2])
      · exact lexLt_false_of_false_of_true m'.data m.data s.data h3 hms
      · intro x hx
        rcases List.mem_cons.mp hx with rfl | hx
        · exact h3
        · exact h4 x hx
    · have hms' : lexLt m.data s.data = false := by
        cases hx : lexLt m.data s.data with
        | true => exact absurd hx hms
        | false => rfl
      rw [if_neg hms]
      obtain ⟨m', h1, h2, h3, h4⟩ := ih m
      refine ⟨m', h1, ?_, h3, ?_⟩
      · rcases h2 with rfl | h2
        · exact Or.inl rfl
        · exact Or.inr (by simp [h2])
      · intro x hx
        rcases List.mem_cons.mp hx with rfl | hx
        · exact lexLt_not_trans m'.data m.data x.data h3 hms'
        · exact h4 x hx

theorem foldl_lexMax (l : List String) (hne : l ≠ []) :
    ∃ m, l.foldl (fun acc s =>
        match acc with
        | none => some s
        | some m => if lexLt m.data s.data then some s else some m) none = some m ∧
      m ∈ l ∧ ∀ x ∈ l, lexLt m.data x.data = false := by
  cases l with
  | nil => exact absurd rfl hne
  | cons s l =>
    obtain ⟨m', h1, h2, h3, h4⟩ := foldl_lexMax_go l s
    refine ⟨m', h1, ?_, ?_⟩
    · rcases h2 with rfl | h2
      · simp
      · simp [h2]
    · intro x hx
      rcases List.mem_cons.mp hx with rfl | hx
      · exact h3
      · exact h4 x hx

theorem gen_data (year k : Nat) :
    ("ORD-" ++ toString year ++ "-" ++ pad4 k).data =
      ("ORD-" ++ toString year ++ "-").data ++ (pad4 k).data := by
  simp [String.data_append]

theorem gen_data_dash (year k : Nat) :
    ("ORD-" ++ toString year ++ "-" ++ pad4 k).data =
      ("ORD-" ++ toString year).data ++ ('-' :: (pad4 k).data) := by
  simp [String.data_append]

theorem pad4_no_dash_10000 : ∀ c ∈ (pad4 10000).data, ¬ c = '-' := by decide

theorem toNatDigits?_pad4_10000 : toNatDigits? (pad4 10000).data = some 10000 := by decide

theorem gen_parse_opt (year k : Nat) (hk : k ≤ 10000) :
    toNatDigits?
      ((splitDash ("ORD-" ++ toString year ++ "-" ++ pad4 k).data).getLastD []) =
      some k := by
  rw [gen_data_dash]
  by_cases h : k ≤ 9999
  · rw [splitDash_getLast_after_dash _ _ (pad4_no_dash k h), toNatDigits?_pad4 k h]
  · have hk10 : k = 10000 := by omega
    subst hk10
    rw [splitDash_getLast_after_dash _ _ pad4_no_dash_10000, toNatDigits?_pad4_10000]

theorem gen_parse (year k : Nat) (hk : k ≤ 10000) :
    numericSuffix ("ORD-" ++ toString year ++ "-" ++ pad4 k) = k := by
  unfold numericSuffix
  rw [gen_parse_opt year k hk]
  rfl

theorem cand_isPrefixOf (year k : Nat) :
    ("ORD-" ++ toString year ++ "-").data.isPrefixOf
      ("ORD-" ++ toString year ++ "-" ++ pad4 k).data = true := by
  rw [List.isPrefixOf_iff_prefix, gen_data]
  exact List.prefix_append _ _

theorem cand_lexLt_iff (year a b : Nat) (ha : a ≤ 9999) (hb : b ≤ 9999) :
    lexLt ("ORD-" ++ toString year ++ "-" ++ pad4 a).data
      ("ORD-" ++ toString year ++ "-" ++ pad4 b).data = true ↔ a < b := by
  rw [gen_data, gen_data, lexLt_append_left, lexLt_pad4_iff a b ha hb]

theorem cand_inj (year a b : Nat) (ha : a ≤ 10000) (hb : b ≤ 10000)
    (h : ("ORD-" ++ toString year ++ "-" ++ pad4 a) =
      ("ORD-" ++ toString year ++ "-" ++ pad4 b)) : a = b := by
  have h2 := congrArg numericSuffix h
  rwa [gen_parse year a ha, gen_parse year b hb] at h2


theorem generate_nil (year : Nat) :
    generate_order_number year [] = "ORD-" ++ toString year ++ "-" ++ pad4 1 := rfl

theorem generate_eq_of_max (year : Nat) (existing : List String) (m : String) (km : Nat)
    (hfilter : existing.filter (fun s =>
      ("ORD-" ++ toString year ++ "-").data.isPrefixOf s.data) = existing)
    (hfold : existing.foldl (fun acc s =>
        match acc with
        | none => some s
        | some m => if lexLt m.data s.data then some s else some m) none = some m)
    (hm : m = "ORD-" ++ toString year ++ "-" ++ pad4 km) (hkm : km ≤ 10000) :
    generate_order_number year existing =
      "ORD-" ++ toString year ++ "-" ++ pad4 (km + 1) := by
  unfold generate_order_number
  dsimp only
  rw [hfilter, hfold]
  dsimp only
  rw [hm, gen_parse_opt year km hkm]


/-- C9 counterexample: with `ORD-2026-9999` existing, the generator produces
`ORD-2026-10000`; generating again, the lexicographically highest string among
`ORD-2026-10000` and `ORD-2026-9999` is `ORD-2026-9999` (since `'1' < '9'`),
so the suffix 10000 is generated a second time: the pair of sequentially
generated numbers is not strictly increasing and reuses a suffix. -/
theorem order_number_reuse_counterexample :
    generate_order_number 2026 ["ORD-2026-9999"] = "ORD-2026-10000" ∧
    generate_order_number 2026
      (generate_order_number 2026 ["ORD-2026-9999"] :: ["ORD-2026-9999"]) =
      "ORD-2026-10000" ∧
    ¬ (numericSuffix (generate_order_number 2026 ["ORD-2026-9999"]) <
        numericSuffix (generate_order_number 2026
          (generate_order_number 2026 ["ORD-2026-9999"] :: ["ORD-2026-9999"]))) := by
  refine ⟨by rfl, by rfl, by decide⟩

/-- C9 amended: provided every existing order number of the year is
well-formed with a zero-padded suffix of at most 9998 (fewer than 9999 orders
that year), two sequentially generated order numbers have strictly increasing
numeric suffixes and neither collides with an existing number or each other. -/
theorem order_numbers_strictly_increase (year : Nat) (existing : List String)
    (hwf : ∀ s ∈ existing, ∃ k, wellFormedNumber year k s) :
    numericSuffix (generate_order_number year existing) <
      numericSuffix (generate_order_number year
        (generate_order_number year existing :: existing)) ∧
    generate_order_number year existing ∉ existing ∧
    generate_order_number year (generate_order_number year existing :: existing) ∉
      (generate_order_number year existing :: existing) := by
  have hfilter : existing.filter (fun s =>
      ("ORD-" ++ toString year ++ "-").data.isPrefixOf s.data) = existing := by
    rw [List.filter_eq_self]
    intro s hs
    obtain ⟨k, -, -, rfl⟩ := hwf s hs
    exact cand_isPrefixOf year k
  cases existing with
  | nil =>
    rw [generate_nil]
    have hfold1 : ([("ORD-" ++ toString year ++ "-" ++ pad4 1)] : List String).foldl
        (fun acc s =>
          match acc with
          | none => some s
          | some m => if lexLt m.data s.data then some s else some m) none =
        some ("ORD-" ++ toString year ++ "-" ++ pad4 1) := rfl
    have hfilter1 : ([("ORD-" ++ toString year ++ "-" ++ pad4 1)] : List String).filter
        (fun s => ("ORD-" ++ toString year ++ "-").data.isPrefixOf s.data) =
        [("ORD-" ++ toString year ++ "-" ++ pad4 1)] := by
      rw [List.filter_eq_self]
      intro s hs
      rw [List.mem_singleton] at hs
      subst hs
      exact cand_isPrefixOf year 1
    rw [generate_eq_of_max year _ _ 1 hfilter1 hfold1 rfl (by omega)]
    refine ⟨?_, by simp, ?_⟩
    · rw [gen_parse year 1 (by omega), gen_parse year 2 (by omega)]
      omega
    · rw [List.mem_singleton]
      intro h
      have := cand_inj year 2 1 (by omega) (by omega) h
      omega
  | cons e es =>
    obtain ⟨m, hfold, hmem, hmax⟩ := foldl_lexMax (e :: es) (by simp)
    obtain ⟨km, hk1, hk2, hmc⟩ := hwf m hmem
    have hkx : ∀ x ∈ e :: es, ∃ k, k ≤ km ∧ 1 ≤ k ∧ k ≤ 9998 ∧
        x = "ORD-" ++ toString year ++ "-" ++ pad4 k := by
      intro x hx
      obtain ⟨k, hx1, hx2, rfl⟩ := hwf x hx
      refine ⟨k, ?_, hx1, hx2, rfl⟩
      have h1 := hmax _ hx
      rw [hmc] at h1
      by_contra hlt
      rw [← Bool.not_eq_true] at h1
      exact h1 ((cand_lexLt_iff year km k (by omega) (by omega)).mpr (by omega))
    have hgen1 : generate_order_number year (e :: es) =
        "ORD-" ++ toString year ++ "-" ++ pad4 (km + 1) :=
      generate_eq_of_max year _ m km hfilter hfold hmc (by omega)
    -- second generation
    have hfilter2 : (("ORD-" ++ toString year ++ "-" ++ pad4 (km + 1)) :: e :: es).filter
        (fun s => ("ORD-" ++ toString year ++ "-").data.isPrefixOf s.data) =
        ("ORD-" ++ toString year ++ "-" ++ pad4 (km + 1)) :: e :: es := by
      rw [List.filter_eq_self]
      intro s hs
      rcases List.mem_cons.mp hs with rfl | hs
      · exact cand_isPrefixOf year (km + 1)
      · obtain ⟨k, -, -, rfl⟩ := hwf s hs
        exact cand_isPrefixOf year k
    obtain ⟨m2, hfold2, hmem2, hlt2, hmax2⟩ :=
      foldl_lexMax_go (e :: es) ("ORD-" ++ toString year ++ "-" ++ pad4 (km + 1))
    have hm2 : m2 = "ORD-" ++ toString year ++ "-" ++ pad4 (km + 1) := by
      rcases hmem2 with rfl | hmem2
      · rfl
      · obtain ⟨k2, hk2le, -, hk2b, rfl⟩ := hkx m2 hmem2
        exfalso
        rw [← Bool.not_eq_true] at hlt2
        exact hlt2 ((cand_lexLt_iff year k2 (km + 1) (by omega) (by omega)).mpr (by omega))
    have hfold2' : (("ORD-" ++ toString year ++ "-" ++ pad4 (km + 1)) :: e :: es).foldl
        (fun acc s =>
          match acc with
          | none => some s
          | some m => if lexLt m.data s.data then some s else some m) none =
        some ("ORD-" ++ toString year ++ "-" ++ pad4 (km + 1)) := by
      show (e :: es).foldl _ (some ("ORD-" ++ toString year ++ "-" ++ pad4 (km + 1))) = _
      rw [hfold2, hm2]
    have hgen2 : generate_order_number year
        (("ORD-" ++ toString year ++ "-" ++ pad4 (km + 1)) :: e :: es) =
        "ORD-" ++ toString year ++ "-" ++ pad4 (km + 2) :=
      generate_eq_of_max year _ _ (km + 1) hfilter2 hfold2' rfl (by omega)
    rw [hgen1, hgen2]
    refine ⟨?_, ?_, ?_⟩
    · rw [gen_parse year (km + 1) (by omega), gen_parse year (km + 2) (by omega)]
      omega
    · intro hmem1
      obtain ⟨k, hkle, -, -, hkeq⟩ := hkx _ hmem1
      have := cand_inj year (km + 1) k (by omega) (by omega) hkeq
      omega
    · intro hmem3
      rcases List.mem_cons.mp hmem3 with heq | hmem3
      · have := cand_inj year (km + 2) (km + 1) (by omega) (by omega) heq
        omega
      · obtain ⟨k, hkle, -, -, hkeq⟩ := hkx _ hmem3
        have := cand_inj year (km + 2) k (by omega) (by omega) hkeq
        omega

/-- C9 amended witness: with `ORD-2026-0007` and `ORD-2026-0003` existing, the
two sequentially generated numbers have strictly increasing suffixes and are
fresh. -/
theorem order_numbers_strictly_increase_witness :
    numericSuffix (generate_order_number 2026 ["ORD-2026-0007", "ORD-2026-0003"]) <
      numericSuffix (generate_order_number 2026
        (generate_order_number 2026 ["ORD-2026-0007", "ORD-2026-0003"] ::
          ["ORD-2026-0007", "ORD-2026-0003"])) ∧
    generate_order_number 2026 ["ORD-2026-0007", "ORD-2026-0003"] ∉
      (["ORD-2026-0007", "ORD-2026-0003"] : List String) ∧
    generate_order_number 2026
      (generate_order_number 2026 ["ORD-2026-0007", "ORD-2026-0003"] ::
        ["ORD-2026-0007", "ORD-2026-0003"]) ∉
      (generate_order_number 2026 ["ORD-2026-0007", "ORD-2026-0003"] ::
        ["ORD-2026-0007", "ORD-2026-0003"]) :=
  order_numbers_strictly_increase 2026 ["ORD-2026-0007", "ORD-2026-0003"]
    (by
      intro s hs
      rcases List.mem_cons.mp hs with rfl | hs
      · exact ⟨7, by norm_num, by norm_num, by rfl⟩
      · rw [List.mem_singleton] at hs
        subst hs
        exact ⟨3, by norm_num, by norm_num, by rfl⟩)

end Tailoring
